import Mathlib

/-!
Verification of the dataset-merge engine of the tag-editor repository.

The definitions below are a shallow embedding of
`src/tag-editor-app/src/app/api/datasets/merge/route.ts` (the current
version of the merge route, i.e. the second document in that file), of the
analyze endpoint (second document of `src/unnamed/part_001`), and of the
relevant uniqueness constraints of `prisma/schema.prisma`.

Modelling conventions:
- Record ids are drawn from one `nextId` generator (the database allocates
  fresh unique ids; no code path compares ids across record types).
- `bbox`/`area` are opaque payload copied verbatim by the code; they are
  carried at type `List Int` / `Int`.
- The Prisma `@@unique([cocoId, datasetId])` constraints on Category, Image
  and Annotation records are modelled: each create checks the constraint and
  returns `Except.error` on violation, mirroring a raised Prisma error.
  Uncaught errors abort the surrounding transaction; the source wraps only
  the per-annotation category fallback and the annotation create in
  try/catch.
- JavaScript truthiness on strings/numbers (empty string and 0 are falsy)
  is modelled by `jsOrStr` / `jsOrNat` / `truthyStr`; interpolation of a
  possibly-null dataset name renders `null`, modelled by `jsName`.
- A JS `Map` is modelled as an insertion-ordered association list with
  replace-on-set (`setAssoc`); `categoryMappings.set(key, undefined)` is
  observationally an erase, since the map is only ever read back through
  truthiness-checked `get`.
- Object-store (MinIO) copies touch no record-store state; the copy queue
  `copiedFiles` is modelled, the copy execution loop is not.
-/

namespace TagEditor

/-- Prisma model Category: {id, name, supercategory, datasetId, cocoId}. -/
structure Category where
  id : Nat
  name : String
  supercategory : Option String
  datasetId : Nat
  cocoId : Nat
deriving DecidableEq, Inhabited

/-- A loaded annotation as included under an image: the code reads
`annotation.category.id` from the eagerly joined category, which always
equals the annotation's categoryId foreign key. -/
structure SrcAnn where
  id : Nat
  cocoId : Nat
  bbox : List Int
  area : Int
  iscrowd : Nat
  categoryId : Nat
deriving DecidableEq, Inhabited

/-- A loaded source image with its annotations (Prisma include). -/
structure SrcImage where
  id : Nat
  fileName : String
  width : Nat
  height : Nat
  dateCaptured : Option Nat
  license : Option Nat
  cocoId : Nat
  filePath : Option String
  thumbnailPath : Option String
  annotations : List SrcAnn
deriving DecidableEq, Inhabited

/-- A loaded source dataset snapshot (Prisma findMany include). -/
structure SrcDataset where
  id : Nat
  name : Option String
  categories : List Category
  images : List SrcImage
deriving DecidableEq, Inhabited

/-- An Image row of the record store. -/
structure ImageRec where
  id : Nat
  fileName : String
  width : Nat
  height : Nat
  dateCaptured : Option Nat
  license : Option Nat
  datasetId : Nat
  cocoId : Nat
  filePath : Option String
  thumbnailPath : Option String
deriving DecidableEq, Inhabited

/-- An Annotation row of the record store. -/
structure AnnRec where
  id : Nat
  imageId : Nat
  categoryId : Nat
  bbox : List Int
  area : Int
  iscrowd : Nat
  datasetId : Nat
  cocoId : Nat
deriving DecidableEq, Inhabited

/-- One persisted write issued by the merge, annotated with the datasetId of
the touched row (for the update, the datasetId of the row the raw SQL UPDATE
matches). The merge route issues no deletes, so there is no delete case. -/
inductive WriteOp where
  | createDataset (id : Nat)
  | createCategory (id : Nat) (datasetId : Nat)
  | createImage (id : Nat) (datasetId : Nat)
  | updateImageThumbnail (id : Nat) (datasetId : Nat)
  | createAnn (id : Nat) (datasetId : Nat)
deriving DecidableEq, Inhabited

/-- Record store state: fresh-id source, the three row tables, and the trace
of writes issued so far. -/
structure St where
  nextId : Nat
  categories : List Category
  images : List ImageRec
  annotations : List AnnRec
  trace : List WriteOp
deriving DecidableEq, Inhabited

/-- Decidable equality for run outcomes. -/
instance {ε α : Type} [DecidableEq ε] [DecidableEq α] :
    DecidableEq (Except ε α) := fun a b =>
  match a, b with
  | Except.ok x, Except.ok y =>
    if h : x = y then isTrue (by rw [h])
    else isFalse (by intro hc; cases hc; exact h rfl)
  | Except.error x, Except.error y =>
    if h : x = y then isTrue (by rw [h])
    else isFalse (by intro hc; cases hc; exact h rfl)
  | Except.ok _, Except.error _ => isFalse (by intro hc; cases hc)
  | Except.error _, Except.ok _ => isFalse (by intro hc; cases hc)

/-- JS `a || b` for an optional string (null and "" are falsy). -/
def jsOrStr : Option String → String → String
  | some s, d => if s = "" then d else s
  | none, d => d

/-- JS `a || b` for an optional number (null/undefined and 0 are falsy). -/
def jsOrNat : Option Nat → Nat → Nat
  | some n, d => if n = 0 then d else n
  | none, d => d

/-- JS template interpolation of a String-or-null value. -/
def jsName : Option String → String
  | some s => s
  | none => "null"

/-- JS truthiness of a nullable string. -/
def truthyStr : Option String → Bool
  | some s => s ≠ ""
  | none => false

/-- Insertion-ordered set insert (JS Set.add). -/
def jsSetInsert (l : List Nat) (x : Nat) : List Nat :=
  if l.contains x then l else l ++ [x]

/-- Order of first occurrence, deduplicated (Array.from of a JS Set filled
by iteration). -/
def dedupNats (l : List Nat) : List Nat :=
  l.foldl jsSetInsert []

/-- JS Map.set: replace in place if the key exists, else append. -/
def setAssoc {κ α : Type} [BEq κ] (m : List (κ × α)) (k : κ) (v : α) :
    List (κ × α) :=
  if m.any (fun p => p.1 == k) then
    m.map (fun p => if p.1 == k then (k, v) else p)
  else m ++ [(k, v)]

/-- JS Map.get. -/
def getAssoc {κ α : Type} [BEq κ] (m : List (κ × α)) (k : κ) : Option α :=
  (m.find? (fun p => p.1 == k)).map (fun p => p.2)

/-- The categoryMappings map, keyed by the source pair encoded in the code
as the string `datasetId:categoryId` (an injective encoding of the pair). -/
def setMapping (m : List ((Nat × Nat) × Nat)) (k : Nat × Nat) (v : Nat) :
    List ((Nat × Nat) × Nat) :=
  setAssoc m k v

/-- Read a category mapping. -/
def getMapping (m : List ((Nat × Nat) × Nat)) (k : Nat × Nat) : Option Nat :=
  getAssoc m k

/-- Map.set(key, undefined): the map is only read back via truthiness-checked
get, so storing undefined is observationally removal of the key. -/
def eraseMapping (m : List ((Nat × Nat) × Nat)) (k : Nat × Nat) :
    List ((Nat × Nat) × Nat) :=
  m.filter (fun p => !(p.1 == k))

/-- tx.category.create: checked against `@@unique([cocoId, datasetId])`. -/
def dbCreateCategory (st : St) (name : String) (supercategory : Option String)
    (datasetId cocoId : Nat) : Except String (Category × St) :=
  if st.categories.any (fun c => c.cocoId == cocoId && c.datasetId == datasetId) then
    Except.error "Unique constraint failed on the fields: (cocoId, datasetId)"
  else
    let c : Category := ⟨st.nextId, name, supercategory, datasetId, cocoId⟩
    Except.ok (c, { st with
      nextId := st.nextId + 1,
      categories := st.categories ++ [c],
      trace := st.trace ++ [WriteOp.createCategory st.nextId datasetId] })

/-- tx.image.create: checked against `@@unique([cocoId, datasetId])`. -/
def dbCreateImage (st : St) (fileName : String) (width height : Nat)
    (dateCaptured license : Option Nat) (datasetId cocoId : Nat)
    (filePath : Option String) : Except String (ImageRec × St) :=
  if st.images.any (fun i => i.cocoId == cocoId && i.datasetId == datasetId) then
    Except.error "Unique constraint failed on the fields: (cocoId, datasetId)"
  else
    let i : ImageRec :=
      ⟨st.nextId, fileName, width, height, dateCaptured, license, datasetId, cocoId,
        filePath, none⟩
    Except.ok (i, { st with
      nextId := st.nextId + 1,
      images := st.images ++ [i],
      trace := st.trace ++ [WriteOp.createImage st.nextId datasetId] })

/-- tx.annotation.create: checked against `@@unique([cocoId, datasetId])`. -/
def dbCreateAnn (st : St) (imageId categoryId : Nat) (bbox : List Int)
    (area : Int) (iscrowd : Nat) (datasetId cocoId : Nat) :
    Except String (AnnRec × St) :=
  if st.annotations.any (fun a => a.cocoId == cocoId && a.datasetId == datasetId) then
    Except.error "Unique constraint failed on the fields: (cocoId, datasetId)"
  else
    let a : AnnRec := ⟨st.nextId, imageId, categoryId, bbox, area, iscrowd, datasetId, cocoId⟩
    Except.ok (a, { st with
      nextId := st.nextId + 1,
      annotations := st.annotations ++ [a],
      trace := st.trace ++ [WriteOp.createAnn st.nextId datasetId] })

/-- The raw SQL `UPDATE "Image" SET "thumbnailPath" = ... WHERE "id" = ...`.
The trace records the datasetId of the row the update matches. -/
def dbUpdateImageThumbnail (st : St) (imageId : Nat) (p : String) : St :=
  let dsId := (((st.images.find? (fun i => i.id == imageId)).map
    (fun i => i.datasetId)).getD 0)
  { st with
    images := st.images.map
      (fun i => if i.id == imageId then { i with thumbnailPath := some p } else i),
    trace := st.trace ++ [WriteOp.updateImageThumbnail imageId dsId] }

/-- tx.category.findUnique({ where: { id } }). -/
def dbFindCategory (st : St) (id : Nat) : Option Category :=
  st.categories.find? (fun c => c.id == id)

/-- The request's category mapping decision actions. -/
inductive DecisionAction where
  | merge
  | keep_separate
  | rename
deriving DecidableEq, Inhabited

/-- CategoryMappingDecision of the merge request. -/
structure CategoryMappingDecision where
  conflictIndex : Nat
  action : DecisionAction
  targetCategoryName : Option String
  targetCocoId : Option Nat
  selectedSourceCategoryId : Option Nat
deriving DecidableEq, Inhabited

/-- categoryMergeStrategy of the merge request. -/
inductive CategoryMergeStrategy where
  | keep_separate
  | merge_by_name
  | prefix_with_dataset
deriving DecidableEq, Inhabited

/-- handleDuplicateImages of the merge request. -/
inductive HandleDuplicateImages where
  | skip
  | rename
  | overwrite
  | keep_best_annotated
deriving DecidableEq, Inhabited

/-- mergeStrategy of the merge request. -/
inductive MergeStrategy where
  | create_new
  | merge_into_existing
deriving DecidableEq, Inhabited

/-- Collect the category ids referenced by a dataset's annotations
(nested loop over images and annotations into a JS Set). -/
def referencedCategoryIds (ds : SrcDataset) : List Nat :=
  dedupNats (ds.images.foldl
    (fun acc img => acc ++ img.annotations.map (fun a => a.categoryId)) [])

/-- The orphaned-category repair pass for one source dataset: every
referenced-but-undeclared category id is looked up in the record store and,
when found, pushed onto the dataset's working category list. The source
performs no ownership check on the found category. -/
def repairOrphans (table : List Category) (ds : SrcDataset) : SrcDataset :=
  let existingCategoryIds := ds.categories.map (fun c => c.id)
  let orphanedIds := (referencedCategoryIds ds).filter
    (fun i => ¬ existingCategoryIds.contains i)
  let found := orphanedIds.filterMap (fun i => table.find? (fun c => c.id == i))
  { ds with categories := ds.categories ++ found }

/-- One entry of the flattened (category, source dataset) iteration; the
code only reads the dataset's id and name at each category. -/
structure ConflictItem where
  category : Category
  datasetId : Nat
  datasetName : Option String
deriving DecidableEq, Inhabited

/-- The category's conflict key: the template `name_cocoId`. -/
def conflictKey (c : Category) : String :=
  c.name ++ "_" ++ toString c.cocoId

/-- Insert an item into an insertion-ordered keyed group list (JS Map of
arrays, as built by the conflict and duplicate-image grouping loops). -/
def mapGroupInsert {α : Type} (groups : List (String × List α)) (key : String)
    (item : α) : List (String × List α) :=
  if groups.any (fun g => g.1 == key) then
    groups.map (fun g => if g.1 == key then (g.1, g.2 ++ [item]) else g)
  else groups ++ [(key, [item])]

/-- Group a list by a key, preserving key insertion order. -/
def groupByKey {α : Type} (key : α → String) (xs : List α) :
    List (String × List α) :=
  xs.foldl (fun gs x => mapGroupInsert gs (key x) x) []

/-- The nested `for dataset / for category` iteration order, flattened. -/
def allCatPairs (datasets : List SrcDataset) : List ConflictItem :=
  datasets.foldl
    (fun acc ds => acc ++ ds.categories.map (fun c => ⟨c, ds.id, ds.name⟩)) []

/-- An indexed conflict: groups of size > 1, indexed after filtering. -/
structure Conflict where
  key : String
  items : List ConflictItem
  index : Nat
deriving DecidableEq, Inhabited

/-- Build the ordered conflict list exactly as the merge route does: group
all source categories by `name_cocoId`, keep groups with more than one
member, and index them by position after filtering. -/
def buildConflicts (datasets : List SrcDataset) : List Conflict :=
  (((groupByKey (fun it => conflictKey it.category) (allCatPairs datasets)).filter
      (fun g => g.2.length > 1)).enum).map
    (fun p => ⟨p.2.1, p.2.2, p.1⟩)

/-- decisionLookup: a JS Map keyed by `conflict_{index}`; a later decision
with the same conflictIndex overwrites an earlier one. -/
def buildDecisionLookup (ds : List CategoryMappingDecision) :
    List (Nat × CategoryMappingDecision) :=
  ds.foldl (fun m d => setAssoc m d.conflictIndex d) []

/-- Mutable state of the category phase: the record store, the JS array
`existingCategories` (target-dataset categories, appended on create), the
`mergeTargetCategories` cache and the `categoryMappings` map. -/
structure CatPhase where
  st : St
  existingCategories : List Category
  mergeTargets : List (Nat × Nat)
  categoryMappings : List ((Nat × Nat) × Nat)
deriving DecidableEq, Inhabited

/-- First pass, one decision: for an `action = merge` decision referencing a
valid conflict, resolve or create the single target category for that
conflictIndex — existing target-dataset category with the target name first,
else a fresh create — and cache it. -/
def processMergeDecision (finalId : Nat) (conflicts : List Conflict)
    (cp : CatPhase) (d : CategoryMappingDecision) : Except String CatPhase :=
  if d.action = DecisionAction.merge then
    match conflicts.get? d.conflictIndex with
    | none => Except.ok cp
    | some conflict =>
      match conflict.items with
      | [] => Except.error "TypeError: cannot read properties of undefined"
      | item0 :: _ =>
        let targetName := jsOrStr d.targetCategoryName item0.category.name
        let targetCocoId := jsOrNat d.targetCocoId item0.category.cocoId
        match getAssoc cp.mergeTargets d.conflictIndex with
        | some _ => Except.ok cp
        | none =>
          match cp.existingCategories.find? (fun c => c.name == targetName) with
          | some existingTarget =>
            Except.ok { cp with
              mergeTargets := setAssoc cp.mergeTargets d.conflictIndex existingTarget.id }
          | none =>
            match dbCreateCategory cp.st targetName item0.category.supercategory
                finalId targetCocoId with
            | Except.error e => Except.error e
            | Except.ok (newCategory, st) =>
              Except.ok { cp with
                st := st,
                existingCategories := cp.existingCategories ++ [newCategory],
                mergeTargets := setAssoc cp.mergeTargets d.conflictIndex newCategory.id }
  else Except.ok cp

/-- First pass over all decisions. -/
def firstPass (finalId : Nat) (conflicts : List Conflict) :
    List CategoryMappingDecision → CatPhase → Except String CatPhase
  | [], cp => Except.ok cp
  | d :: rest, cp =>
    match processMergeDecision finalId conflicts cp d with
    | Except.error e => Except.error e
    | Except.ok cp => firstPass finalId conflicts rest cp

/-- The repeated find-or-create block of the second pass: reuse an
existingCategories entry with the given name, else create a category with
that name in the output dataset and push it onto existingCategories. -/
def findOrCreate (finalId : Nat) (cp : CatPhase) (name : String)
    (supercategory : Option String) (cocoId : Nat) :
    Except String (Nat × CatPhase) :=
  match cp.existingCategories.find? (fun c => c.name == name) with
  | some c => Except.ok (c.id, cp)
  | none =>
    match dbCreateCategory cp.st name supercategory finalId cocoId with
    | Except.error e => Except.error e
    | Except.ok (newCategory, st) =>
      Except.ok (newCategory.id,
        { cp with
          st := st,
          existingCategories := cp.existingCategories ++ [newCategory] })

/-- Record a source-category mapping. -/
def setCatMapping (cp : CatPhase) (dsId catId finalCategoryId : Nat) : CatPhase :=
  { cp with categoryMappings :=
      setMapping cp.categoryMappings (dsId, catId) finalCategoryId }

/-- The switch over a user decision's action for a conflicted category: merge
uses the cached target (the code stores undefined in the map when the cache
misses, observationally an erase), rename and keep_separate find-or-create
by the respective names. -/
def applyUserDecision (finalId : Nat) (cp : CatPhase) (it : ConflictItem)
    (conflict : Conflict) (d : CategoryMappingDecision) : Except String CatPhase :=
  match d.action with
  | DecisionAction.merge =>
    match getAssoc cp.mergeTargets conflict.index with
    | some targetId => Except.ok (setCatMapping cp it.datasetId it.category.id targetId)
    | none =>
      Except.ok { cp with
        categoryMappings :=
          eraseMapping cp.categoryMappings (it.datasetId, it.category.id) }
  | DecisionAction.rename =>
    match findOrCreate finalId cp
        (jsOrStr d.targetCategoryName (jsName it.datasetName ++ "_" ++ it.category.name))
        it.category.supercategory
        (jsOrNat d.targetCocoId (it.category.cocoId + it.datasetId * 10000)) with
    | Except.error e => Except.error e
    | Except.ok (fid, cp) => Except.ok (setCatMapping cp it.datasetId it.category.id fid)
  | DecisionAction.keep_separate =>
    match findOrCreate finalId cp
        (jsName it.datasetName ++ "_" ++ it.category.name)
        it.category.supercategory (it.category.cocoId + it.datasetId * 10000) with
    | Except.error e => Except.error e
    | Except.ok (fid, cp) => Except.ok (setCatMapping cp it.datasetId it.category.id fid)

/-- The switch over the caller's default categoryMergeStrategy for a category
with no applicable user decision. -/
def applyDefaultStrategy (finalId : Nat) (strategy : CategoryMergeStrategy)
    (cp : CatPhase) (it : ConflictItem) : Except String CatPhase :=
  match strategy with
  | CategoryMergeStrategy.keep_separate =>
    match findOrCreate finalId cp
        (jsName it.datasetName ++ "_" ++ it.category.name)
        it.category.supercategory (it.category.cocoId + it.datasetId * 10000) with
    | Except.error e => Except.error e
    | Except.ok (fid, cp) => Except.ok (setCatMapping cp it.datasetId it.category.id fid)
  | CategoryMergeStrategy.merge_by_name =>
    match findOrCreate finalId cp it.category.name it.category.supercategory
        (it.category.cocoId + it.datasetId * 10000) with
    | Except.error e => Except.error e
    | Except.ok (fid, cp) => Except.ok (setCatMapping cp it.datasetId it.category.id fid)
  | CategoryMergeStrategy.prefix_with_dataset =>
    match findOrCreate finalId cp
        ("[" ++ jsName it.datasetName ++ "] " ++ it.category.name)
        it.category.supercategory (it.category.cocoId + it.datasetId * 10000) with
    | Except.error e => Except.error e
    | Except.ok (fid, cp) => Except.ok (setCatMapping cp it.datasetId it.category.id fid)

/-- Second pass, one source category: apply the user decision for its
conflict if there is one, else the caller's default category merge
strategy, and record the mapping. -/
def processCategory (finalId : Nat) (strategy : CategoryMergeStrategy)
    (conflicts : List Conflict)
    (decisionLookup : List (Nat × CategoryMappingDecision))
    (cp : CatPhase) (it : ConflictItem) : Except String CatPhase :=
  match conflicts.find? (fun c => c.key == conflictKey it.category) with
  | some conflict =>
    match getAssoc decisionLookup conflict.index with
    | some d => applyUserDecision finalId cp it conflict d
    | none => applyDefaultStrategy finalId strategy cp it
  | none => applyDefaultStrategy finalId strategy cp it

/-- Second pass over the flattened (category, dataset) iteration. -/
def secondPass (finalId : Nat) (strategy : CategoryMergeStrategy)
    (conflicts : List Conflict)
    (decisionLookup : List (Nat × CategoryMappingDecision)) :
    List ConflictItem → CatPhase → Except String CatPhase
  | [], cp => Except.ok cp
  | it :: rest, cp =>
    match processCategory finalId strategy conflicts decisionLookup cp it with
    | Except.error e => Except.error e
    | Except.ok cp => secondPass finalId strategy conflicts decisionLookup rest cp

/-- Accumulated per-image annotation copying results. -/
structure AnnResults where
  success : Nat
  failed : Nat
  skippedNoCategory : Nat
  errors : List String
deriving DecidableEq, Inhabited

/-- Pointwise accumulation of annotation results into the running totals. -/
def addResults (t r : AnnResults) : AnnResults :=
  ⟨t.success + r.success, t.failed + r.failed,
    t.skippedNoCategory + r.skippedNoCategory, t.errors ++ r.errors⟩

/-- State threaded through createImageRecord: the record store, the MinIO
copy queue and the categoryMappings map (mutated by the fallback). -/
structure CirState where
  st : St
  copiedFiles : List (String × String)
  categoryMappings : List ((Nat × Nat) × Nat)
deriving DecidableEq, Inhabited

/-- The guarded tx.annotation.create at the end of the per-annotation body;
its failure is caught and counted. -/
def attemptCreateAnn (newImageId finalId srcDsId : Nat) (imageFileName : String)
    (a : SrcAnn) (newCategoryId : Nat) (s : CirState) (res : AnnResults) :
    CirState × AnnResults :=
  match dbCreateAnn s.st newImageId newCategoryId a.bbox a.area a.iscrowd finalId
      (a.cocoId + srcDsId * 1000000) with
  | Except.ok (_, st) => ({ s with st := st }, { res with success := res.success + 1 })
  | Except.error e =>
    (s, { res with
      failed := res.failed + 1,
      errors := res.errors ++
        ["Failed to copy annotation " ++ toString a.id ++ " for image " ++
          imageFileName ++ ": " ++ e] })

/-- The per-annotation body of createImageRecord: look up the category
mapping; on a miss, look the category up in the record store and either
recreate it (if it belongs to the source dataset) or create the
`[MISSING]_` fallback category — both inside a try/catch whose failure
skips the annotation — then create the target annotation. -/
def processAnn (newImageId finalId srcDsId : Nat) (srcDsName : Option String)
    (imageFileName : String) (s : CirState) (res : AnnResults) (a : SrcAnn) :
    CirState × AnnResults :=
  match getMapping s.categoryMappings (srcDsId, a.categoryId) with
  | some newCategoryId =>
    attemptCreateAnn newImageId finalId srcDsId imageFileName a newCategoryId s res
  | none =>
    match dbFindCategory s.st a.categoryId with
    | some missingCategory =>
      if missingCategory.datasetId == srcDsId then
        match dbCreateCategory s.st
            (jsOrStr srcDsName "Unknown" ++ "_" ++ missingCategory.name)
            missingCategory.supercategory finalId
            (missingCategory.cocoId + srcDsId * 10000) with
        | Except.error e =>
          (s, { res with
            skippedNoCategory := res.skippedNoCategory + 1,
            errors := res.errors ++
              ["Failed to create missing category for annotation " ++
                toString a.id ++ " (category " ++ toString a.categoryId ++
                ") in dataset " ++ toString srcDsId ++ " for image " ++
                imageFileName ++ ": " ++ e] })
        | Except.ok (newCategory, st) =>
          attemptCreateAnn newImageId finalId srcDsId imageFileName a newCategory.id
            { s with
              st := st,
              categoryMappings :=
                setMapping s.categoryMappings (srcDsId, a.categoryId) newCategory.id }
            res
      else
        match dbCreateCategory s.st
            ("[MISSING]_" ++ jsOrStr srcDsName "Unknown" ++ "_CategoryID_" ++
              toString a.categoryId)
            none finalId (a.categoryId + srcDsId * 10000) with
        | Except.error e =>
          (s, { res with
            skippedNoCategory := res.skippedNoCategory + 1,
            errors := res.errors ++
              ["Failed to create missing category for annotation " ++
                toString a.id ++ " (category " ++ toString a.categoryId ++
                ") in dataset " ++ toString srcDsId ++ " for image " ++
                imageFileName ++ ": " ++ e] })
        | Except.ok (fallbackCategory, st) =>
          attemptCreateAnn newImageId finalId srcDsId imageFileName a
            fallbackCategory.id
            { s with
              st := st,
              categoryMappings :=
                setMapping s.categoryMappings (srcDsId, a.categoryId)
                  fallbackCategory.id }
            res
    | none =>
      match dbCreateCategory s.st
          ("[MISSING]_" ++ jsOrStr srcDsName "Unknown" ++ "_CategoryID_" ++
            toString a.categoryId)
          none finalId (a.categoryId + srcDsId * 10000) with
      | Except.error e =>
        (s, { res with
          skippedNoCategory := res.skippedNoCategory + 1,
          errors := res.errors ++
            ["Failed to create missing category for annotation " ++
              toString a.id ++ " (category " ++ toString a.categoryId ++
              ") in dataset " ++ toString srcDsId ++ " for image " ++
              imageFileName ++ ": " ++ e] })
      | Except.ok (fallbackCategory, st) =>
        attemptCreateAnn newImageId finalId srcDsId imageFileName a
          fallbackCategory.id
          { s with
            st := st,
            categoryMappings :=
              setMapping s.categoryMappings (srcDsId, a.categoryId)
                fallbackCategory.id }
          res

/-- The annotation copying loop of createImageRecord. -/
def processAnnList (newImageId finalId srcDsId : Nat) (srcDsName : Option String)
    (imageFileName : String) :
    List SrcAnn → CirState → AnnResults → CirState × AnnResults
  | [], s, res => (s, res)
  | a :: rest, s, res =>
    let p := processAnn newImageId finalId srcDsId srcDsName imageFileName s res a
    processAnnList newImageId finalId srcDsId srcDsName imageFileName rest p.1 p.2

/-- createImageRecord: create the target image row (cocoId offset by
`sourceDataset.id * 100000`), set its thumbnailPath by raw SQL when the
source image has one, queue the MinIO copy when the source has a filePath,
then copy the image's annotations through the category mappings. -/
def createImageRecord (image : SrcImage) (srcDsId : Nat)
    (srcDsName : Option String) (finalId : Nat) (finalFileName : String)
    (s : CirState) : Except String (AnnResults × CirState) :=
  match dbCreateImage s.st finalFileName image.width image.height
      image.dateCaptured image.license finalId
      (image.cocoId + srcDsId * 100000)
      (if truthyStr image.filePath then
        some ("dataset-" ++ toString finalId ++ "/" ++ finalFileName)
      else none) with
  | Except.error e => Except.error e
  | Except.ok (newImage, st1) =>
    let st2 :=
      if truthyStr image.thumbnailPath then
        dbUpdateImageThumbnail st1 newImage.id
          ("dataset-" ++ toString finalId ++ "/thumbnails/" ++ finalFileName)
      else st1
    let copied :=
      if truthyStr image.filePath then
        s.copiedFiles ++
          [(image.filePath.getD "",
            "dataset-" ++ toString finalId ++ "/" ++ finalFileName)]
      else s.copiedFiles
    let p := processAnnList newImage.id finalId srcDsId srcDsName image.fileName
      image.annotations ⟨st2, copied, s.categoryMappings⟩ ⟨0, 0, 0, []⟩
    Except.ok (p.2, p.1)

/-- One member of a duplicate-image group. -/
structure GroupItem where
  image : SrcImage
  dataset : SrcDataset
  annotationCount : Nat
deriving DecidableEq, Inhabited

/-- The flattened image iteration feeding the fileName grouping. -/
def allImageItems (datasets : List SrcDataset) : List GroupItem :=
  datasets.foldl
    (fun acc ds =>
      acc ++ ds.images.map (fun img => ⟨img, ds, img.annotations.length⟩)) []

/-- imageGroups: group every source image by fileName, insertion-ordered. -/
def buildImageGroups (datasets : List SrcDataset) : List (String × List GroupItem) :=
  groupByKey (fun it => it.image.fileName) (allImageItems datasets)

/-- The duplicate warning record surfaced to the caller. -/
structure DuplicateWarning where
  fileName : String
  count : Nat
  datasets : List String
  selectedDataset : Option String
  reason : Option String
deriving DecidableEq, Inhabited

/-- Sum of annotation counts over a dataset's images (keep_best_annotated
tie break). -/
def datasetTotalAnnotations (ds : SrcDataset) : Nat :=
  ds.images.foldl (fun sum img => sum + img.annotations.length) 0

/-- One step of the keep_best_annotated reduce: prefer a strictly higher
per-image annotation count, then a strictly higher dataset total. -/
def keepBestStep (best current : GroupItem) : GroupItem :=
  if current.annotationCount > best.annotationCount then current
  else if current.annotationCount == best.annotationCount then
    if datasetTotalAnnotations current.dataset > datasetTotalAnnotations best.dataset
    then current else best
  else best

/-- JS Array.reduce without initial value: first element seeds the fold. -/
def reduceKeepBest : GroupItem → List GroupItem → GroupItem
  | best, [] => best
  | best, current :: rest => reduceKeepBest (keepBestStep best current) rest

/-- State of the image-and-annotation phase. -/
structure MergePhase where
  st : St
  categoryMappings : List ((Nat × Nat) × Nat)
  copiedFiles : List (String × String)
  duplicateWarnings : List DuplicateWarning
  totalAnnotationResults : AnnResults
deriving DecidableEq, Inhabited

/-- Run createImageRecord for one group item and fold its results into the
running totals. -/
def runCreateImageRecord (mp : MergePhase) (item : GroupItem) (finalId : Nat)
    (finalFileName : String) : Except String MergePhase :=
  match createImageRecord item.image item.dataset.id item.dataset.name finalId
      finalFileName ⟨mp.st, mp.copiedFiles, mp.categoryMappings⟩ with
  | Except.error e => Except.error e
  | Except.ok (result, s) =>
    Except.ok { mp with
      st := s.st,
      copiedFiles := s.copiedFiles,
      categoryMappings := s.categoryMappings,
      totalAnnotationResults := addResults mp.totalAnnotationResults result }

/-- Split a character list at every dot, like String.split("."): the result
always has at least one (possibly empty) part. -/
def splitOnDot : List Char → List (List Char)
  | [] => [[]]
  | c :: cs =>
    match splitOnDot cs with
    | [] => if c = '.' then [[], []] else [[c]]
    | p :: ps => if c = '.' then [] :: p :: ps else (c :: p) :: ps

/-- Re-join dot-separated parts. -/
def joinDots : List (List Char) → List Char
  | [] => []
  | [p] => p
  | p :: ps => p ++ '.' :: joinDots ps

/-- fileName.replace(/\.[^/.]+$/, ""): drop a final dot-extension whose
characters contain neither a dot nor a slash (the regex matches exactly when
the part after the last dot is nonempty and slash-free). -/
def stripExt (s : String) : String :=
  let parts := splitOnDot s.data
  if parts.length ≥ 2 then
    let lastPart := parts.getLastD []
    if lastPart ≠ [] && !(lastPart.contains '/') then
      String.mk (joinDots parts.dropLast)
    else s
  else s

/-- fileName.split(".").pop(). -/
def lastExt (s : String) : String :=
  String.mk ((splitOnDot s.data).getLastD [])

/-- The rename loop: group member 0 keeps the shared fileName; member i > 0
gets `{nameWithoutExt}_{i+1}.{extension}`. -/
def renameLoop (fileName : String) (finalId : Nat) :
    Nat → List GroupItem → MergePhase → Except String MergePhase
  | _, [], mp => Except.ok mp
  | i, item :: rest, mp =>
    let currentFileName :=
      if i == 0 then fileName
      else stripExt fileName ++ "_" ++ toString (i + 1) ++ "." ++ lastExt fileName
    match runCreateImageRecord mp item finalId currentFileName with
    | Except.error e => Except.error e
    | Except.ok mp => renameLoop fileName finalId (i + 1) rest mp

/-- Process one fileName group: singles pass straight through; groups of
more than one member follow the selected duplicate-image strategy, record a
DuplicateWarning, and (except under rename, which creates every member
itself) create the single selected image. -/
def processGroup (strategy : HandleDuplicateImages) (finalId : Nat)
    (fileName : String) (group : List GroupItem) (mp : MergePhase) :
    Except String MergePhase :=
  match group with
  | [] => Except.ok mp
  | [item] => runCreateImageRecord mp item finalId fileName
  | g0 :: g1 :: grest =>
    let warningBase : DuplicateWarning :=
      ⟨fileName, group.length,
        group.map (fun it => jsOrStr it.dataset.name "Unnamed Dataset"),
        none, none⟩
    match strategy with
    | HandleDuplicateImages.rename =>
      match renameLoop fileName finalId 0 group mp with
      | Except.error e => Except.error e
      | Except.ok mp =>
        Except.ok { mp with
          duplicateWarnings := mp.duplicateWarnings ++
            [{ warningBase with reason := some "All instances renamed and kept" }] }
    | HandleDuplicateImages.skip =>
      if mp.st.images.any (fun img => img.datasetId == finalId && img.fileName == fileName) then
        Except.ok { mp with
          duplicateWarnings := mp.duplicateWarnings ++
            [{ warningBase with
              reason := some "All instances skipped (already exists in target)" }] }
      else
        let w := { warningBase with
          selectedDataset := some (jsOrStr g0.dataset.name "Unnamed Dataset"),
          reason := some "First instance kept, others skipped" }
        runCreateImageRecord
          { mp with duplicateWarnings := mp.duplicateWarnings ++ [w] }
          g0 finalId fileName
    | HandleDuplicateImages.keep_best_annotated =>
      let selectedImage := reduceKeepBest g0 (g1 :: grest)
      let w := { warningBase with
        selectedDataset := some (jsOrStr selectedImage.dataset.name "Unnamed Dataset"),
        reason := some ("Selected from " ++ jsName selectedImage.dataset.name ++
          " (" ++ toString selectedImage.annotationCount ++ " annotations)") }
      runCreateImageRecord
        { mp with duplicateWarnings := mp.duplicateWarnings ++ [w] }
        selectedImage finalId fileName
    | HandleDuplicateImages.overwrite =>
      let selectedImage := (g1 :: grest).getLastD g0
      let w := { warningBase with
        selectedDataset := some (jsOrStr selectedImage.dataset.name "Unnamed Dataset"),
        reason := some "Last instance kept (overwrite mode)" }
      runCreateImageRecord
        { mp with duplicateWarnings := mp.duplicateWarnings ++ [w] }
        selectedImage finalId fileName

/-- Iterate the image groups in insertion order. -/
def processGroups (strategy : HandleDuplicateImages) (finalId : Nat) :
    List (String × List GroupItem) → MergePhase → Except String MergePhase
  | [], mp => Except.ok mp
  | g :: rest, mp =>
    match processGroup strategy finalId g.1 g.2 mp with
    | Except.error e => Except.error e
    | Except.ok mp => processGroups strategy finalId rest mp

/-- Step 1 of the transaction: create the target dataset (create_new) or
select the already-verified existing one. -/
def initialSetup (st0 : St) (ms : MergeStrategy) (targetDatasetId : Option Nat) :
    Nat × St :=
  match ms with
  | MergeStrategy.create_new =>
    (st0.nextId,
      { st0 with
        nextId := st0.nextId + 1,
        trace := st0.trace ++ [WriteOp.createDataset st0.nextId] })
  | MergeStrategy.merge_into_existing => (targetDatasetId.getD 0, st0)

/-- Step 2 of the transaction (the Category Mapping Resolver): load the
output dataset's categories, repair orphaned references, detect conflicts,
create merge targets (first pass) and map every source category (second
pass). Returns the repaired datasets and conflicts for the later phases. -/
def resolveCategoryMappings (st1 : St) (finalId : Nat)
    (sourceDatasets : List SrcDataset) (strategy : CategoryMergeStrategy)
    (decisions : List CategoryMappingDecision) :
    Except String (CatPhase × List SrcDataset × List Conflict) :=
  let existingCategories := st1.categories.filter (fun c => c.datasetId == finalId)
  let repaired := sourceDatasets.map (repairOrphans st1.categories)
  let conflicts := buildConflicts repaired
  let decisionLookup := buildDecisionLookup decisions
  match firstPass finalId conflicts decisions
      ⟨st1, existingCategories, [], []⟩ with
  | Except.error e => Except.error e
  | Except.ok cp1 =>
    match secondPass finalId strategy conflicts decisionLookup
        (allCatPairs repaired) cp1 with
    | Except.error e => Except.error e
    | Except.ok cp2 => Except.ok (cp2, repaired, conflicts)

/-- The observable outcome of the merge transaction. -/
structure MergeResultState where
  finalDatasetId : Nat
  st : St
  duplicateWarnings : List DuplicateWarning
  totalAnnotationResults : AnnResults
  conflicts : List Conflict
  mergeTargets : List (Nat × Nat)
  categoryMappings : List ((Nat × Nat) × Nat)
  copiedFiles : List (String × String)
deriving DecidableEq, Inhabited

/-- The merge transaction body: target-dataset setup, category mapping
resolution, fileName grouping and per-group duplicate handling. The MinIO
copy loops (steps 4 and 5) touch no record-store state and are outside the
model. -/
def mergeRun (st0 : St) (sourceDatasets : List SrcDataset)
    (ms : MergeStrategy) (targetDatasetId : Option Nat)
    (categoryMergeStrategy : CategoryMergeStrategy)
    (handleDuplicateImages : HandleDuplicateImages)
    (decisions : List CategoryMappingDecision) :
    Except String MergeResultState :=
  let q := initialSetup st0 ms targetDatasetId
  match resolveCategoryMappings q.2 q.1 sourceDatasets categoryMergeStrategy
      decisions with
  | Except.error e => Except.error e
  | Except.ok (cp2, repaired, conflicts) =>
    match processGroups handleDuplicateImages q.1 (buildImageGroups repaired)
        ⟨cp2.st, cp2.categoryMappings, [], [], ⟨0, 0, 0, []⟩⟩ with
    | Except.error e => Except.error e
    | Except.ok mp =>
      Except.ok ⟨q.1, mp.st, mp.duplicateWarnings, mp.totalAnnotationResults,
        conflicts, cp2.mergeTargets, mp.categoryMappings, mp.copiedFiles⟩

/-- One entry of the analyze endpoint's unified allCategories list. -/
structure AnalyzeCategory where
  id : Nat
  name : String
  cocoId : Nat
  datasetId : Nat
  datasetName : String
  annotationCount : Nat
deriving DecidableEq, Inhabited

/-- A source dataset as loaded by the analyze endpoint: categories carry
their annotation counts (_count.annotations). -/
structure AnalyzeSource where
  id : Nat
  name : Option String
  categories : List (Category × Nat)
deriving DecidableEq, Inhabited

/-- Per-dataset member entry of a reported conflict. -/
structure ConflictDatasetEntry where
  datasetId : Nat
  datasetName : String
  categoryId : Nat
  annotationCount : Nat
deriving DecidableEq, Inhabited

/-- CategoryConflict of the analyze response. The cocoId is an Int because
name-conflicts are reported with cocoId -1. -/
structure CategoryConflict where
  categoryName : String
  cocoId : Int
  datasets : List ConflictDatasetEntry
  suggestedAction : DecisionAction
  reason : String
deriving DecidableEq, Inhabited

/-- Build the unified category list: target categories first (dataset name
rendered as "Target Dataset"), then all source categories. -/
def buildAllCategories (targetCategories : List (Category × Nat))
    (sources : List AnalyzeSource) : List AnalyzeCategory :=
  targetCategories.map (fun p =>
    ⟨p.1.id, p.1.name, p.1.cocoId, p.1.datasetId, "Target Dataset", p.2⟩) ++
  sources.foldl (fun acc ds =>
    acc ++ ds.categories.map (fun p =>
      ⟨p.1.id, p.1.name, p.1.cocoId, ds.id, jsOrStr ds.name "Unnamed Dataset", p.2⟩)) []

/-- Project an allCategories entry to a conflict member entry. -/
def toConflictEntry (c : AnalyzeCategory) : ConflictDatasetEntry :=
  ⟨c.datasetId, c.datasetName, c.id, c.annotationCount⟩

/-- Build one exact-match conflict (group size > 1) with the strategy-driven
suggested action and reason. -/
def mkExactConflict (strategy : CategoryMergeStrategy)
    (members : List AnalyzeCategory) : CategoryConflict :=
  let first := members.headD default
  let totalAnnotations := members.foldl (fun sum m => sum + m.annotationCount) 0
  match strategy with
  | CategoryMergeStrategy.merge_by_name =>
    ⟨first.name, (first.cocoId : Int), members.map toConflictEntry,
      DecisionAction.merge,
      "Same category name \"" ++ first.name ++ "\" found in " ++
        toString members.length ++ " datasets with " ++
        toString totalAnnotations ++ " total annotations. Suggested to merge."⟩
  | CategoryMergeStrategy.keep_separate =>
    ⟨first.name, (first.cocoId : Int), members.map toConflictEntry,
      DecisionAction.keep_separate,
      "Keep separate as requested. Will create prefixed categories."⟩
  | CategoryMergeStrategy.prefix_with_dataset =>
    ⟨first.name, (first.cocoId : Int), members.map toConflictEntry,
      DecisionAction.rename,
      "Category name conflict. Will prefix with dataset names."⟩

/-- Build one same-name different-cocoId conflict: cocoId -1, always
suggested keep_separate. -/
def mkNameConflict (name : String) (members : List AnalyzeCategory)
    (uniqueCocoIds : List Nat) : CategoryConflict :=
  ⟨name, (-1 : Int), members.map toConflictEntry, DecisionAction.keep_separate,
    "Same category name \"" ++ name ++ "\" with different COCO IDs (" ++
      String.intercalate ", " (uniqueCocoIds.map toString) ++
      "). Recommended to keep separate or manually review."⟩

/-- The name-conflict list: name groups of size > 1 spanning more than one
distinct cocoId. -/
def nameConflictsOf (allCategories : List AnalyzeCategory) :
    List CategoryConflict :=
  (groupByKey (fun c => c.name) allCategories).filterMap (fun g =>
    if g.2.length > 1 then
      let uniqueCocoIds := dedupNats (g.2.map (fun c => c.cocoId))
      if uniqueCocoIds.length > 1 then
        some (mkNameConflict g.1 g.2 uniqueCocoIds)
      else none
    else none)

/-- The exact-match conflict list: `name_cocoId` groups of size > 1, in key
insertion order. -/
def exactConflictsOf (strategy : CategoryMergeStrategy)
    (allCategories : List AnalyzeCategory) : List CategoryConflict :=
  ((groupByKey (fun c => c.name ++ "_" ++ toString c.cocoId) allCategories).filter
    (fun g => g.2.length > 1)).map (fun g => mkExactConflict strategy g.2)

/-- The analysis object of the analyze response (the datasets summary field
is a pure projection of the inputs and is not modelled). Note the response
returns ONE combined `conflicts` array — exact matches followed by
name-conflicts — and `nameConflicts` is a count. -/
structure AnalyzeResult where
  totalSourceDatasets : Nat
  totalCategories : Nat
  exactMatches : Nat
  nameConflicts : Nat
  conflicts : List CategoryConflict
deriving DecidableEq, Inhabited

/-- The analyze endpoint's conflict analysis. -/
def analyzeMerge (targetCategories : List (Category × Nat))
    (sources : List AnalyzeSource) (strategy : CategoryMergeStrategy) :
    AnalyzeResult :=
  let allCategories := buildAllCategories targetCategories sources
  let conflicts := exactConflictsOf strategy allCategories
  let nameConflictsList := nameConflictsOf allCategories
  ⟨sources.length, allCategories.length, conflicts.length,
    nameConflictsList.length, conflicts ++ nameConflictsList⟩

/-! Lemmas about the JS-Map model. -/

theorem getAssoc_nil {κ α : Type} [BEq κ] (k : κ) :
    getAssoc ([] : List (κ × α)) k = none := rfl

theorem getAssoc_cons {κ α : Type} [BEq κ] (p : κ × α) (m : List (κ × α)) (k : κ) :
    getAssoc (p :: m) k = if p.1 == k then some p.2 else getAssoc m k := by
  cases hp : (p.1 == k) with
  | true => simp [getAssoc, List.find?, hp]
  | false => simp [getAssoc, List.find?, hp]

theorem getAssoc_append {κ α : Type} [BEq κ] (m1 m2 : List (κ × α)) (k : κ) :
    getAssoc (m1 ++ m2) k = (getAssoc m1 k).or (getAssoc m2 k) := by
  unfold getAssoc
  rw [List.find?_append]
  cases m1.find? (fun p => p.1 == k) <;> simp

theorem getAssoc_none_of_not_any {κ α : Type} [BEq κ] (m : List (κ × α)) (k : κ)
    (h : m.any (fun p => p.1 == k) = false) : getAssoc m k = none := by
  induction m with
  | nil => rfl
  | cons p m ih =>
    simp only [List.any_cons, Bool.or_eq_false_iff] at h
    rw [getAssoc_cons, h.1, if_neg Bool.false_ne_true]
    exact ih h.2

theorem getAssoc_map_replace_self {κ α : Type} [BEq κ] [LawfulBEq κ]
    (m : List (κ × α)) (k : κ) (v : α) (h : m.any (fun p => p.1 == k) = true) :
    getAssoc (m.map (fun p => if p.1 == k then (k, v) else p)) k = some v := by
  induction m with
  | nil => simp at h
  | cons p m ih =>
    cases hp : (p.1 == k) with
    | true =>
      simp only [List.map_cons, hp, if_true]
      rw [getAssoc_cons]
      simp
    | false =>
      simp only [List.any_cons, hp, Bool.false_or] at h
      simp only [List.map_cons, hp, Bool.false_eq_true, if_false]
      rw [getAssoc_cons, hp]
      simp only [Bool.false_eq_true, if_false]
      exact ih h

theorem getAssoc_map_replace_ne {κ α : Type} [BEq κ] [LawfulBEq κ]
    (m : List (κ × α)) (k k' : κ) (v : α) (h : k' ≠ k) :
    getAssoc (m.map (fun p => if p.1 == k then (k, v) else p)) k' = getAssoc m k' := by
  induction m with
  | nil => rfl
  | cons p m ih =>
    have hkk : (k == k') = false := by
      simp only [beq_eq_false_iff_ne, ne_eq]
      exact fun hh => h hh.symm
    cases hp : (p.1 == k) with
    | true =>
      have hpk : p.1 = k := by simpa using hp
      have h2 : (p.1 == k') = false := by rw [hpk]; exact hkk
      simp only [List.map_cons, hp, if_true]
      rw [getAssoc_cons, getAssoc_cons, h2]
      simp only [hkk, Bool.false_eq_true, if_false]
      exact ih
    | false =>
      simp only [List.map_cons, hp, Bool.false_eq_true, if_false]
      rw [getAssoc_cons, getAssoc_cons]
      cases hpk : (p.1 == k') with
      | true => simp [hpk]
      | false =>
        simp only [hpk, Bool.false_eq_true, if_false]
        exact ih

theorem getAssoc_setAssoc_self {κ α : Type} [BEq κ] [LawfulBEq κ]
    (m : List (κ × α)) (k : κ) (v : α) :
    getAssoc (setAssoc m k v) k = some v := by
  unfold setAssoc
  cases h : m.any (fun p => p.1 == k) with
  | true =>
    rw [if_pos rfl]
    exact getAssoc_map_replace_self m k v h
  | false =>
    rw [if_neg Bool.false_ne_true]
    rw [getAssoc_append, getAssoc_none_of_not_any m k h, getAssoc_cons]
    simp

theorem getAssoc_setAssoc_ne {κ α : Type} [BEq κ] [LawfulBEq κ]
    (m : List (κ × α)) (k k' : κ) (v : α) (h : k' ≠ k) :
    getAssoc (setAssoc m k v) k' = getAssoc m k' := by
  unfold setAssoc
  cases hany : m.any (fun p => p.1 == k) with
  | true =>
    rw [if_pos rfl]
    exact getAssoc_map_replace_ne m k k' v h
  | false =>
    rw [if_neg Bool.false_ne_true]
    rw [getAssoc_append, getAssoc_cons, getAssoc_nil]
    have h1 : (k == k') = false := by
      simp only [beq_eq_false_iff_ne, ne_eq]
      exact fun hh => h hh.symm
    simp [h1]

theorem getAssoc_mem {κ α : Type} [BEq κ] [LawfulBEq κ]
    (m : List (κ × α)) (k : κ) (v : α) (h : getAssoc m k = some v) :
    (k, v) ∈ m := by
  unfold getAssoc at h
  cases hf : m.find? (fun p => p.1 == k) with
  | none => rw [hf] at h; simp at h
  | some p =>
    rw [hf] at h
    simp only [Option.map] at h
    have hp := List.find?_some hf
    have hm := List.mem_of_find?_eq_some hf
    have hp1 : p.1 = k := by simpa using hp
    have : p = (k, v) := by
      cases p with
      | mk a b =>
        have hb : b = v := by simpa using h
        simp only at hp1
        rw [hp1, hb]
    rw [← this]
    exact hm

theorem setAssoc_mem {κ α : Type} [BEq κ] [LawfulBEq κ]
    (m : List (κ × α)) (k : κ) (v : α) (p : κ × α)
    (h : p ∈ setAssoc m k v) : p ∈ m ∨ p = (k, v) := by
  unfold setAssoc at h
  by_cases hany : m.any (fun q => q.1 == k) = true
  · rw [if_pos (by rw [hany])] at h
    simp only [List.mem_map] at h
    obtain ⟨q, hq, hqe⟩ := h
    cases hqk : (q.1 == k) with
    | true => right; rw [← hqe, hqk]; simp
    | false => left; rw [← hqe, hqk]; simpa using hq
  · rw [if_neg hany] at h
    simp only [List.mem_append, List.mem_singleton] at h
    exact h

theorem eraseMapping_subset (m : List ((Nat × Nat) × Nat)) (k : Nat × Nat)
    (p : (Nat × Nat) × Nat) (h : p ∈ eraseMapping m k) : p ∈ m :=
  List.mem_of_mem_filter h

theorem getMapping_eraseMapping_ne (m : List ((Nat × Nat) × Nat))
    (k k' : Nat × Nat) (h : k' ≠ k) :
    getMapping (eraseMapping m k) k' = getMapping m k' := by
  unfold getMapping eraseMapping
  induction m with
  | nil => rfl
  | cons p m ih =>
    cases hp : (p.1 == k) with
    | true =>
      have hp1 : p.1 = k := by simpa using hp
      have h2 : (p.1 == k') = false := by
        simp only [beq_eq_false_iff_ne, ne_eq, hp1]
        exact fun hh => h hh.symm
      simp only [List.filter_cons, hp, Bool.not_true]
      rw [if_neg (by exact Bool.false_ne_true)]
      rw [getAssoc_cons, h2]
      simp only [Bool.false_eq_true, if_false]
      exact ih
    | false =>
      simp only [List.filter_cons, hp, Bool.not_false]
      rw [if_pos trivial]
      rw [getAssoc_cons, getAssoc_cons]
      cases hpk : (p.1 == k') with
      | true => simp [hpk]
      | false =>
        simp only [hpk, Bool.false_eq_true, if_false]
        exact ih

/-! Lemmas about the insertion-ordered grouping and the conflict list. -/

theorem foldlInv {α β : Type} (f : β → α → β) (P : β → Prop) :
    ∀ (l : List α) (b : β), P b → (∀ b a, a ∈ l → P b → P (f b a)) →
      P (l.foldl f b)
  | [], b, hb, _ => hb
  | a :: l, b, hb, hf =>
    foldlInv f P l (f b a) (hf b a (List.mem_cons_self a l) hb)
      (fun b x hx hb => hf b x (List.mem_cons_of_mem a hx) hb)

theorem mapGroupInsert_wf {α : Type} (key : α → String) (src : List α)
    (gs : List (String × List α)) (x : α) (hx : x ∈ src)
    (hgs : ∀ g ∈ gs, ∀ y ∈ g.2, key y = g.1 ∧ y ∈ src) :
    ∀ g ∈ mapGroupInsert gs (key x) x, ∀ y ∈ g.2, key y = g.1 ∧ y ∈ src := by
  intro g hg y hy
  unfold mapGroupInsert at hg
  by_cases hany : gs.any (fun g => g.1 == key x) = true
  · rw [if_pos (by rw [hany])] at hg
    simp only [List.mem_map] at hg
    obtain ⟨g0, hg0, hge⟩ := hg
    cases hk : (g0.1 == key x) with
    | true =>
      rw [hk] at hge
      simp only [if_true] at hge
      rw [← hge] at hy
      simp only [List.mem_append, List.mem_singleton] at hy
      rcases hy with hy | hy
      · have := hgs g0 hg0 y hy
        rw [← hge]
        exact this
      · subst hy
        rw [← hge]
        exact ⟨(eq_of_beq hk).symm, hx⟩
    | false =>
      rw [hk] at hge
      simp only [Bool.false_eq_true, if_false] at hge
      rw [← hge] at hy
      rw [← hge]
      exact hgs g0 hg0 y hy
  · rw [if_neg hany] at hg
    simp only [List.mem_append, List.mem_singleton] at hg
    rcases hg with hg | hg
    · exact hgs g hg y hy
    · subst hg
      simp only [List.mem_singleton] at hy
      subst hy
      exact ⟨rfl, hx⟩

theorem groupByKey_wf {α : Type} (key : α → String) (xs : List α) :
    ∀ g ∈ groupByKey key xs, ∀ y ∈ g.2, key y = g.1 ∧ y ∈ xs := by
  unfold groupByKey
  exact foldlInv (fun gs x => mapGroupInsert gs (key x) x)
    (fun gs => ∀ g ∈ gs, ∀ y ∈ g.2, key y = g.1 ∧ y ∈ xs) xs []
    (by intro g hg; simp at hg)
    (fun gs x hx hgs => mapGroupInsert_wf key xs gs x hx hgs)

theorem mapGroupInsert_keys_nodup {α : Type} (gs : List (String × List α))
    (k : String) (x : α) (h : (gs.map (fun g => g.1)).Nodup) :
    ((mapGroupInsert gs k x).map (fun g => g.1)).Nodup := by
  unfold mapGroupInsert
  by_cases hany : gs.any (fun g => g.1 == k) = true
  · rw [if_pos (by rw [hany])]
    have : (gs.map (fun g => if g.1 == k then (g.1, g.2 ++ [x]) else g)).map
        (fun g => g.1) = gs.map (fun g => g.1) := by
      rw [List.map_map]
      apply List.map_congr_left
      intro g _
      simp only [Function.comp_apply]
      split <;> rfl
    rw [this]
    exact h
  · rw [if_neg hany]
    rw [List.map_append]
    simp only [List.map_cons, List.map_nil]
    apply List.Nodup.append h (List.nodup_singleton k)
    intro a ha hb
    simp only [List.mem_singleton] at hb
    subst hb
    apply hany
    simp only [List.mem_map] at ha
    obtain ⟨g, hg, hge⟩ := ha
    exact List.any_eq_true.mpr ⟨g, hg, by simp [hge]⟩

theorem groupByKey_keys_nodup {α : Type} (key : α → String) (xs : List α) :
    ((groupByKey key xs).map (fun g => g.1)).Nodup := by
  unfold groupByKey
  exact foldlInv (fun gs x => mapGroupInsert gs (key x) x)
    (fun gs => (gs.map (fun g => g.1)).Nodup) xs []
    (by simp)
    (fun gs x _ h => mapGroupInsert_keys_nodup gs (key x) x h)

theorem find?_eq_of_mem_of_nodup_keys {β : Type} (f : β → String) (l : List β)
    (c : β) (hnd : (l.map f).Nodup) (hc : c ∈ l) :
    l.find? (fun x => f x == f c) = some c := by
  induction l with
  | nil => simp at hc
  | cons h t ih =>
    rw [List.find?]
    cases hk : (f h == f c) with
    | true =>
      have hfk : f h = f c := by simpa using hk
      rcases List.mem_cons.mp hc with hch | hct
      · rw [hch]
      · exfalso
        simp only [List.map_cons, List.nodup_cons] at hnd
        exact hnd.1 (hfk ▸ List.mem_map.mpr ⟨c, hct, rfl⟩)
    | false =>
      have hfk : f h ≠ f c := by simpa using hk
      rcases List.mem_cons.mp hc with hch | hct
      · exact absurd (by rw [hch] : f h = f c) hfk
      · simp only [List.map_cons, List.nodup_cons] at hnd
        exact ih hnd.2 hct

theorem buildConflicts_mem (datasets : List SrcDataset) (c : Conflict)
    (hc : c ∈ buildConflicts datasets) :
    c.items.length > 1 ∧
      ∀ it ∈ c.items, conflictKey it.category = c.key ∧ it ∈ allCatPairs datasets := by
  unfold buildConflicts at hc
  simp only [List.mem_map] at hc
  obtain ⟨p, hp, hpe⟩ := hc
  have hpf := List.mem_enum_iff_getElem?.mp hp
  have hmem : p.2 ∈ (groupByKey (fun it => conflictKey it.category)
      (allCatPairs datasets)).filter (fun g => decide (g.2.length > 1)) := by
    have := List.getElem?_mem hpf
    exact this
  have hfil := List.mem_filter.mp hmem
  constructor
  · have := hfil.2
    rw [← hpe]
    simpa using this
  · intro it hit
    rw [← hpe] at hit
    simp only at hit
    have hwf := groupByKey_wf (fun it => conflictKey it.category)
      (allCatPairs datasets) p.2 hfil.1 it hit
    rw [← hpe]
    exact hwf

theorem buildConflicts_keys_nodup (datasets : List SrcDataset) :
    ((buildConflicts datasets).map (fun c => c.key)).Nodup := by
  unfold buildConflicts
  rw [List.map_map]
  have h1 : ((((groupByKey (fun it => conflictKey it.category)
      (allCatPairs datasets)).filter (fun g => decide (g.2.length > 1))).enum).map
        ((fun c => c.key) ∘ (fun p => (⟨p.2.1, p.2.2, p.1⟩ : Conflict)))) =
      (((groupByKey (fun it => conflictKey it.category)
        (allCatPairs datasets)).filter (fun g => decide (g.2.length > 1))).enum.map
          Prod.snd).map (fun g => g.1) := by
    rw [List.map_map]
    rfl
  rw [h1, List.enum_map_snd]
  have hsub : (((groupByKey (fun it => conflictKey it.category)
      (allCatPairs datasets)).filter (fun g => decide (g.2.length > 1))).map
        (fun (g : String × List ConflictItem) => g.1)).Sublist
      ((groupByKey (fun it => conflictKey it.category)
        (allCatPairs datasets)).map (fun (g : String × List ConflictItem) => g.1)) :=
    (List.filter_sublist _).map (fun (g : String × List ConflictItem) => g.1)
  exact (groupByKey_keys_nodup _ _).sublist hsub

theorem buildConflicts_get_index (datasets : List SrcDataset) (c : Conflict)
    (hc : c ∈ buildConflicts datasets) :
    (buildConflicts datasets).get? c.index = some c := by
  unfold buildConflicts at hc ⊢
  simp only [List.mem_map] at hc
  obtain ⟨p, hp, hpe⟩ := hc
  have hpf := List.mem_enum_iff_getElem?.mp hp
  rw [List.get?_eq_getElem?, List.getElem?_map, List.getElem?_enum]
  have hidx : c.index = p.1 := by rw [← hpe]
  rw [hidx, hpf]
  simp only [Option.map]
  rw [← hpe]

theorem buildDecisionLookup_mem (ds : List CategoryMappingDecision)
    (idx : Nat) (d : CategoryMappingDecision)
    (h : getAssoc (buildDecisionLookup ds) idx = some d) :
    d ∈ ds ∧ d.conflictIndex = idx := by
  have hmem := getAssoc_mem _ _ _ h
  have hinv : ∀ p ∈ buildDecisionLookup ds, p.2 ∈ ds ∧ p.2.conflictIndex = p.1 := by
    unfold buildDecisionLookup
    exact foldlInv (fun m d => setAssoc m d.conflictIndex d)
      (fun m => ∀ p ∈ m, p.2 ∈ ds ∧ p.2.conflictIndex = p.1) ds []
      (by intro p hp; simp at hp)
      (by
        intro m d0 hd0 hm p hp
        rcases setAssoc_mem m d0.conflictIndex d0 p hp with hp | hp
        · exact hm p hp
        · subst hp
          exact ⟨hd0, rfl⟩)
  exact hinv (idx, d) hmem

/-! First-pass (merge target) lemmas. -/

theorem processMergeDecision_targets_mono (finalId : Nat)
    (conflicts : List Conflict) (cp : CatPhase) (d : CategoryMappingDecision)
    (cp' : CatPhase) (h : processMergeDecision finalId conflicts cp d = Except.ok cp')
    (idx t : Nat) (ht : getAssoc cp.mergeTargets idx = some t) :
    getAssoc cp'.mergeTargets idx = some t := by
  unfold processMergeDecision at h
  split at h
  · split at h
    · cases h; exact ht
    · split at h
      · cases h
      · split at h
        · cases h; exact ht
        · next hcache =>
          have hne : idx ≠ d.conflictIndex := by
            intro he
            rw [he, hcache] at ht
            cases ht
          simp only [] at h
          split at h
          · cases h
            simp only
            rw [getAssoc_setAssoc_ne _ _ _ _ hne]
            exact ht
          · split at h
            · cases h
            · cases h
              simp only
              rw [getAssoc_setAssoc_ne _ _ _ _ hne]
              exact ht
  · cases h; exact ht

theorem processMergeDecision_targets_set (finalId : Nat)
    (conflicts : List Conflict) (cp : CatPhase) (d : CategoryMappingDecision)
    (cp' : CatPhase) (conflict : Conflict)
    (h : processMergeDecision finalId conflicts cp d = Except.ok cp')
    (hact : d.action = DecisionAction.merge)
    (hc : conflicts.get? d.conflictIndex = some conflict)
    (hne : conflict.items ≠ []) :
    ∃ t, getAssoc cp'.mergeTargets d.conflictIndex = some t := by
  unfold processMergeDecision at h
  rw [if_pos hact] at h
  split at h
  · next heq => rw [heq] at hc; cases hc
  · next conflict2 heq =>
    rw [heq] at hc
    injection hc with hc2
    subst hc2
    split at h
    · next heq2 => exact absurd heq2 hne
    · next item0 rest heq2 =>
      simp only [] at h
      split at h
      · next t0 hcache =>
        cases h
        exact ⟨t0, hcache⟩
      · next hcache =>
        split at h
        · cases h
          exact ⟨_, getAssoc_setAssoc_self _ _ _⟩
        · split at h
          · cases h
          · cases h
            exact ⟨_, getAssoc_setAssoc_self _ _ _⟩

theorem firstPass_split (finalId : Nat) (conflicts : List Conflict)
    (l1 l2 : List CategoryMappingDecision) (cp : CatPhase) (cp' : CatPhase)
    (h : firstPass finalId conflicts (l1 ++ l2) cp = Except.ok cp') :
    ∃ cp1, firstPass finalId conflicts l1 cp = Except.ok cp1 ∧
      firstPass finalId conflicts l2 cp1 = Except.ok cp' := by
  induction l1 generalizing cp with
  | nil => exact ⟨cp, rfl, h⟩
  | cons d l1 ih =>
    rw [List.cons_append] at h
    unfold firstPass at h
    split at h
    · cases h
    · next cp0 hstep =>
      obtain ⟨cp1, h1, h2⟩ := ih cp0 h
      refine ⟨cp1, ?_, h2⟩
      unfold firstPass
      rw [hstep]
      exact h1

theorem firstPass_targets_mono (finalId : Nat) (conflicts : List Conflict)
    (ds : List CategoryMappingDecision) (cp cp' : CatPhase)
    (h : firstPass finalId conflicts ds cp = Except.ok cp')
    (idx t : Nat) (ht : getAssoc cp.mergeTargets idx = some t) :
    getAssoc cp'.mergeTargets idx = some t := by
  induction ds generalizing cp with
  | nil => cases h; exact ht
  | cons d ds ih =>
    unfold firstPass at h
    split at h
    · cases h
    · next cp0 hstep =>
      exact ih cp0 h (processMergeDecision_targets_mono _ _ _ _ _ hstep idx t ht)

theorem firstPass_targets_of_mem (finalId : Nat) (conflicts : List Conflict)
    (ds : List CategoryMappingDecision) (cp cp' : CatPhase)
    (d : CategoryMappingDecision) (conflict : Conflict)
    (h : firstPass finalId conflicts ds cp = Except.ok cp')
    (hd : d ∈ ds) (hact : d.action = DecisionAction.merge)
    (hc : conflicts.get? d.conflictIndex = some conflict)
    (hne : conflict.items ≠ []) :
    ∃ t, getAssoc cp'.mergeTargets d.conflictIndex = some t := by
  obtain ⟨l1, l2, rfl⟩ := List.append_of_mem hd
  obtain ⟨cp1, h1, h2⟩ := firstPass_split _ _ _ _ _ _ h
  unfold firstPass at h2
  split at h2
  · cases h2
  · next cp2 hstep =>
    obtain ⟨t, ht⟩ := processMergeDecision_targets_set _ _ _ _ _ _ hstep hact hc hne
    exact ⟨t, firstPass_targets_mono _ _ _ _ _ h2 _ _ ht⟩

/-! Second-pass lemmas. -/

theorem findOrCreate_phase (finalId : Nat) (cp : CatPhase) (name : String)
    (sc : Option String) (cocoId : Nat) (fid : Nat) (cp' : CatPhase)
    (h : findOrCreate finalId cp name sc cocoId = Except.ok (fid, cp')) :
    cp'.mergeTargets = cp.mergeTargets ∧
      cp'.categoryMappings = cp.categoryMappings := by
  unfold findOrCreate at h
  split at h
  · cases h; exact ⟨rfl, rfl⟩
  · split at h
    · cases h
    · cases h; exact ⟨rfl, rfl⟩

theorem applyUserDecision_phase (finalId : Nat) (cp : CatPhase)
    (it : ConflictItem) (conflict : Conflict) (d : CategoryMappingDecision)
    (cp' : CatPhase)
    (h : applyUserDecision finalId cp it conflict d = Except.ok cp') :
    cp'.mergeTargets = cp.mergeTargets ∧
      (∀ k, k ≠ (it.datasetId, it.category.id) →
        getMapping cp'.categoryMappings k = getMapping cp.categoryMappings k) := by
  unfold applyUserDecision at h
  split at h
  · split at h
    · cases h
      refine ⟨rfl, fun k hk => ?_⟩
      unfold setCatMapping setMapping getMapping
      exact getAssoc_setAssoc_ne _ _ _ _ hk
    · cases h
      refine ⟨rfl, fun k hk => ?_⟩
      simp only
      exact getMapping_eraseMapping_ne _ _ _ hk
  · split at h
    · cases h
    · next hfoc =>
      cases h
      have hp := findOrCreate_phase _ _ _ _ _ _ _ hfoc
      refine ⟨hp.1, fun k hk => ?_⟩
      unfold setCatMapping setMapping getMapping
      rw [getAssoc_setAssoc_ne _ _ _ _ hk, hp.2]
  · split at h
    · cases h
    · next hfoc =>
      cases h
      have hp := findOrCreate_phase _ _ _ _ _ _ _ hfoc
      refine ⟨hp.1, fun k hk => ?_⟩
      unfold setCatMapping setMapping getMapping
      rw [getAssoc_setAssoc_ne _ _ _ _ hk, hp.2]

theorem applyDefaultStrategy_phase (finalId : Nat)
    (strategy : CategoryMergeStrategy) (cp : CatPhase) (it : ConflictItem)
    (cp' : CatPhase)
    (h : applyDefaultStrategy finalId strategy cp it = Except.ok cp') :
    cp'.mergeTargets = cp.mergeTargets ∧
      (∀ k, k ≠ (it.datasetId, it.category.id) →
        getMapping cp'.categoryMappings k = getMapping cp.categoryMappings k) := by
  unfold applyDefaultStrategy at h
  split at h <;>
  · split at h
    · cases h
    · next hfoc =>
      cases h
      have hp := findOrCreate_phase _ _ _ _ _ _ _ hfoc
      refine ⟨hp.1, fun k hk => ?_⟩
      unfold setCatMapping setMapping getMapping
      rw [getAssoc_setAssoc_ne _ _ _ _ hk, hp.2]

theorem processCategory_phase (finalId : Nat)
    (strategy : CategoryMergeStrategy) (conflicts : List Conflict)
    (dl : List (Nat × CategoryMappingDecision)) (cp : CatPhase)
    (it : ConflictItem) (cp' : CatPhase)
    (h : processCategory finalId strategy conflicts dl cp it = Except.ok cp') :
    cp'.mergeTargets = cp.mergeTargets ∧
      (∀ k, k ≠ (it.datasetId, it.category.id) →
        getMapping cp'.categoryMappings k = getMapping cp.categoryMappings k) := by
  unfold processCategory at h
  split at h
  · split at h
    · exact applyUserDecision_phase _ _ _ _ _ _ h
    · exact applyDefaultStrategy_phase _ _ _ _ _ h
  · exact applyDefaultStrategy_phase _ _ _ _ _ h

theorem processCategory_mergeTargets (finalId : Nat)
    (strategy : CategoryMergeStrategy) (conflicts : List Conflict)
    (dl : List (Nat × CategoryMappingDecision)) (cp : CatPhase)
    (it : ConflictItem) (cp' : CatPhase)
    (h : processCategory finalId strategy conflicts dl cp it = Except.ok cp') :
    cp'.mergeTargets = cp.mergeTargets :=
  (processCategory_phase _ _ _ _ _ _ _ h).1

theorem processCategory_mapping_other (finalId : Nat)
    (strategy : CategoryMergeStrategy) (conflicts : List Conflict)
    (dl : List (Nat × CategoryMappingDecision)) (cp : CatPhase)
    (it : ConflictItem) (cp' : CatPhase)
    (h : processCategory finalId strategy conflicts dl cp it = Except.ok cp')
    (k : Nat × Nat) (hk : k ≠ (it.datasetId, it.category.id)) :
    getMapping cp'.categoryMappings k = getMapping cp.categoryMappings k :=
  (processCategory_phase _ _ _ _ _ _ _ h).2 k hk

theorem processCategory_merge_sets (finalId : Nat)
    (strategy : CategoryMergeStrategy) (conflicts : List Conflict)
    (dl : List (Nat × CategoryMappingDecision)) (cp : CatPhase)
    (it : ConflictItem) (conflict : Conflict) (d : CategoryMappingDecision)
    (t : Nat)
    (hfind : conflicts.find? (fun c => c.key == conflictKey it.category) =
      some conflict)
    (hd : getAssoc dl conflict.index = some d)
    (hact : d.action = DecisionAction.merge)
    (ht : getAssoc cp.mergeTargets conflict.index = some t) :
    processCategory finalId strategy conflicts dl cp it =
      Except.ok (setCatMapping cp it.datasetId it.category.id t) := by
  unfold processCategory
  rw [hfind]
  simp only [hd]
  unfold applyUserDecision
  rw [hact, ht]

theorem secondPass_split (finalId : Nat) (strategy : CategoryMergeStrategy)
    (conflicts : List Conflict) (dl : List (Nat × CategoryMappingDecision))
    (l1 l2 : List ConflictItem) (cp cp' : CatPhase)
    (h : secondPass finalId strategy conflicts dl (l1 ++ l2) cp = Except.ok cp') :
    ∃ cp1, secondPass finalId strategy conflicts dl l1 cp = Except.ok cp1 ∧
      secondPass finalId strategy conflicts dl l2 cp1 = Except.ok cp' := by
  induction l1 generalizing cp with
  | nil => exact ⟨cp, rfl, h⟩
  | cons it l1 ih =>
    rw [List.cons_append] at h
    unfold secondPass at h
    split at h
    · cases h
    · next cp0 hstep =>
      obtain ⟨cp1, h1, h2⟩ := ih cp0 h
      refine ⟨cp1, ?_, h2⟩
      unfold secondPass
      rw [hstep]
      exact h1

theorem secondPass_targets_const (finalId : Nat) (strategy : CategoryMergeStrategy)
    (conflicts : List Conflict) (dl : List (Nat × CategoryMappingDecision))
    (l : List ConflictItem) (cp cp' : CatPhase)
    (h : secondPass finalId strategy conflicts dl l cp = Except.ok cp') :
    cp'.mergeTargets = cp.mergeTargets := by
  induction l generalizing cp with
  | nil => cases h; rfl
  | cons it l ih =>
    unfold secondPass at h
    split at h
    · cases h
    · next cp0 hstep =>
      rw [ih cp0 h]
      exact processCategory_mergeTargets _ _ _ _ _ _ _ hstep

theorem secondPass_mapping_preserved (finalId : Nat)
    (strategy : CategoryMergeStrategy) (conflicts : List Conflict)
    (dl : List (Nat × CategoryMappingDecision)) (l : List ConflictItem)
    (cp cp' : CatPhase)
    (h : secondPass finalId strategy conflicts dl l cp = Except.ok cp')
    (k : Nat × Nat) (hk : ∀ it ∈ l, k ≠ (it.datasetId, it.category.id)) :
    getMapping cp'.categoryMappings k = getMapping cp.categoryMappings k := by
  induction l generalizing cp with
  | nil => cases h; rfl
  | cons it l ih =>
    unfold secondPass at h
    split at h
    · cases h
    · next cp0 hstep =>
      rw [ih cp0 h (fun it2 h2 => hk it2 (List.mem_cons_of_mem it h2))]
      exact processCategory_mapping_other _ _ _ _ _ _ _ hstep k
        (hk it (List.mem_cons_self it l))

/-! Image-phase lemmas: established category mappings persist. -/

theorem attemptCreateAnn_state (newImageId finalId srcDsId : Nat)
    (imageFileName : String) (a : SrcAnn) (newCategoryId : Nat) (s : CirState)
    (res : AnnResults) :
    (attemptCreateAnn newImageId finalId srcDsId imageFileName a newCategoryId
      s res).1.categoryMappings = s.categoryMappings := by
  unfold attemptCreateAnn
  split <;> rfl

theorem processAnn_mapping_mono (newImageId finalId srcDsId : Nat)
    (srcDsName : Option String) (imageFileName : String) (s : CirState)
    (res : AnnResults) (a : SrcAnn) (k : Nat × Nat) (v : Nat)
    (hv : getMapping s.categoryMappings k = some v) :
    getMapping (processAnn newImageId finalId srcDsId srcDsName imageFileName
      s res a).1.categoryMappings k = some v := by
  unfold processAnn
  split
  · rw [attemptCreateAnn_state]
    exact hv
  · next heq =>
    have hkne : k ≠ (srcDsId, a.categoryId) := by
      intro he
      rw [he, heq] at hv
      cases hv
    split
    · split
      · split
        · exact hv
        · rw [attemptCreateAnn_state]
          unfold getMapping setMapping
          simp only
          rw [getAssoc_setAssoc_ne _ _ _ _ hkne]
          exact hv
      · split
        · exact hv
        · rw [attemptCreateAnn_state]
          unfold getMapping setMapping
          simp only
          rw [getAssoc_setAssoc_ne _ _ _ _ hkne]
          exact hv
    · split
      · exact hv
      · rw [attemptCreateAnn_state]
        unfold getMapping setMapping
        simp only
        rw [getAssoc_setAssoc_ne _ _ _ _ hkne]
        exact hv

theorem processAnnList_mapping_mono (newImageId finalId srcDsId : Nat)
    (srcDsName : Option String) (imageFileName : String)
    (anns : List SrcAnn) (s : CirState) (res : AnnResults)
    (k : Nat × Nat) (v : Nat)
    (hv : getMapping s.categoryMappings k = some v) :
    getMapping (processAnnList newImageId finalId srcDsId srcDsName
      imageFileName anns s res).1.categoryMappings k = some v := by
  induction anns generalizing s res with
  | nil => exact hv
  | cons a anns ih =>
    unfold processAnnList
    exact ih _ _ (processAnn_mapping_mono _ _ _ _ _ _ _ _ _ _ hv)

theorem createImageRecord_mapping_mono (image : SrcImage) (srcDsId : Nat)
    (srcDsName : Option String) (finalId : Nat) (finalFileName : String)
    (s : CirState) (r : AnnResults) (s2 : CirState)
    (h : createImageRecord image srcDsId srcDsName finalId finalFileName s =
      Except.ok (r, s2))
    (k : Nat × Nat) (v : Nat)
    (hv : getMapping s.categoryMappings k = some v) :
    getMapping s2.categoryMappings k = some v := by
  unfold createImageRecord at h
  split at h
  · cases h
  · simp only [] at h
    injection h with h2
    have hs2 : s2 = (processAnnList _ finalId srcDsId srcDsName _ _ _ _).1 :=
      (congrArg Prod.snd h2).symm
    rw [hs2]
    exact processAnnList_mapping_mono _ _ _ _ _ _ _ _ _ _ hv

theorem runCreateImageRecord_mapping_mono (mp : MergePhase) (item : GroupItem)
    (finalId : Nat) (fn : String) (mp2 : MergePhase)
    (h : runCreateImageRecord mp item finalId fn = Except.ok mp2)
    (k : Nat × Nat) (v : Nat)
    (hv : getMapping mp.categoryMappings k = some v) :
    getMapping mp2.categoryMappings k = some v := by
  unfold runCreateImageRecord at h
  split at h
  · cases h
  · next r s2 hcir =>
    cases h
    exact createImageRecord_mapping_mono _ _ _ _ _ _ _ _ hcir k v hv

theorem renameLoop_mapping_mono (fileName : String) (finalId : Nat)
    (i : Nat) (items : List GroupItem) (mp mp2 : MergePhase)
    (h : renameLoop fileName finalId i items mp = Except.ok mp2)
    (k : Nat × Nat) (v : Nat)
    (hv : getMapping mp.categoryMappings k = some v) :
    getMapping mp2.categoryMappings k = some v := by
  induction items generalizing i mp with
  | nil => cases h; exact hv
  | cons item items ih =>
    unfold renameLoop at h
    simp only [] at h
    split at h
    · cases h
    · next mp0 hstep =>
      exact ih _ _ h (runCreateImageRecord_mapping_mono _ _ _ _ _ hstep k v hv)

theorem processGroup_mapping_mono (strategy : HandleDuplicateImages)
    (finalId : Nat) (fileName : String) (group : List GroupItem)
    (mp mp2 : MergePhase)
    (h : processGroup strategy finalId fileName group mp = Except.ok mp2)
    (k : Nat × Nat) (v : Nat)
    (hv : getMapping mp.categoryMappings k = some v) :
    getMapping mp2.categoryMappings k = some v := by
  unfold processGroup at h
  split at h
  · cases h; exact hv
  · exact runCreateImageRecord_mapping_mono _ _ _ _ _ h k v hv
  · split at h
    · split at h
      · cases h
      · next mp0 hloop =>
        cases h
        exact renameLoop_mapping_mono _ _ _ _ _ _ hloop k v hv
    · split at h
      · cases h; exact hv
      · exact runCreateImageRecord_mapping_mono _ _ _ _ _ h k v hv
    · exact runCreateImageRecord_mapping_mono _ _ _ _ _ h k v hv
    · exact runCreateImageRecord_mapping_mono _ _ _ _ _ h k v hv

theorem processGroups_mapping_mono (strategy : HandleDuplicateImages)
    (finalId : Nat) (groups : List (String × List GroupItem))
    (mp mp2 : MergePhase)
    (h : processGroups strategy finalId groups mp = Except.ok mp2)
    (k : Nat × Nat) (v : Nat)
    (hv : getMapping mp.categoryMappings k = some v) :
    getMapping mp2.categoryMappings k = some v := by
  induction groups generalizing mp with
  | nil => cases h; exact hv
  | cons g groups ih =>
    unfold processGroups at h
    split at h
    · cases h
    · next mp0 hstep =>
      exact ih _ h (processGroup_mapping_mono _ _ _ _ _ _ hstep k v hv)

/-! Unpacking the top-level runs. -/

theorem resolveCategoryMappings_unpack (st1 : St) (finalId : Nat)
    (srcs : List SrcDataset) (strategy : CategoryMergeStrategy)
    (decisions : List CategoryMappingDecision) (cp2 : CatPhase)
    (repaired : List SrcDataset) (conflicts : List Conflict)
    (h : resolveCategoryMappings st1 finalId srcs strategy decisions =
      Except.ok (cp2, repaired, conflicts)) :
    repaired = srcs.map (repairOrphans st1.categories) ∧
    conflicts = buildConflicts repaired ∧
    ∃ cp1, firstPass finalId conflicts decisions
        ⟨st1, st1.categories.filter (fun c => c.datasetId == finalId), [], []⟩ =
          Except.ok cp1 ∧
      secondPass finalId strategy conflicts (buildDecisionLookup decisions)
        (allCatPairs repaired) cp1 = Except.ok cp2 := by
  unfold resolveCategoryMappings at h
  simp only [] at h
  split at h
  · cases h
  · next cp1 hfp =>
    split at h
    · cases h
    · next cp2b hsp =>
      injection h with h2
      injection h2 with ha hb
      injection hb with hb hcx
      subst ha hb hcx
      exact ⟨rfl, rfl, cp1, hfp, hsp⟩

theorem mergeRun_unpack (st0 : St) (srcs : List SrcDataset) (ms : MergeStrategy)
    (tgt : Option Nat) (cms : CategoryMergeStrategy)
    (hdi : HandleDuplicateImages) (decisions : List CategoryMappingDecision)
    (res : MergeResultState)
    (h : mergeRun st0 srcs ms tgt cms hdi decisions = Except.ok res) :
    ∃ cp2 repaired conflicts mp,
      resolveCategoryMappings (initialSetup st0 ms tgt).2
        (initialSetup st0 ms tgt).1 srcs cms decisions =
          Except.ok (cp2, repaired, conflicts) ∧
      processGroups hdi (initialSetup st0 ms tgt).1 (buildImageGroups repaired)
        ⟨cp2.st, cp2.categoryMappings, [], [], ⟨0, 0, 0, []⟩⟩ = Except.ok mp ∧
      res = ⟨(initialSetup st0 ms tgt).1, mp.st, mp.duplicateWarnings,
        mp.totalAnnotationResults, conflicts, cp2.mergeTargets,
        mp.categoryMappings, mp.copiedFiles⟩ := by
  unfold mergeRun at h
  simp only [] at h
  split at h
  · cases h
  · next cp2x repairedx conflictsx hres =>
    split at h
    · cases h
    · next mp hpg =>
      injection h with h2
      exact ⟨cp2x, repairedx, conflictsx, mp, hres, hpg, h2.symm⟩

/-- C1: for every Conflict resolved by a user Decision with action = merge
(the effective decision for that conflictIndex), the merge resolves exactly
one target category id for that conflict — cached per conflictIndex by the
first pass — and every source category belonging to that conflict is mapped
to that single target category id. The Nodup hypothesis states that the
(datasetId, categoryId) pairs of the source iteration are pairwise distinct,
which holds for records loaded from the store. -/
theorem C1_single_merge_target
    (st0 : St) (srcs : List SrcDataset) (ms : MergeStrategy)
    (tgt : Option Nat) (cms : CategoryMergeStrategy)
    (hdi : HandleDuplicateImages) (decisions : List CategoryMappingDecision)
    (res : MergeResultState) (conflict : Conflict) (d : CategoryMappingDecision)
    (hrun : mergeRun st0 srcs ms tgt cms hdi decisions = Except.ok res)
    (hc : conflict ∈ res.conflicts)
    (hd : getAssoc (buildDecisionLookup decisions) conflict.index = some d)
    (hact : d.action = DecisionAction.merge)
    (hkeys : ((allCatPairs (srcs.map
        (repairOrphans (initialSetup st0 ms tgt).2.categories))).map
        (fun it => (it.datasetId, it.category.id))).Nodup) :
    ∃ t, getAssoc res.mergeTargets conflict.index = some t ∧
      ∀ it ∈ conflict.items,
        getMapping res.categoryMappings (it.datasetId, it.category.id) = some t := by
  obtain ⟨cp2, repaired, conflicts, mp, hres, hpg, hreseq⟩ :=
    mergeRun_unpack _ _ _ _ _ _ _ _ hrun
  obtain ⟨hrep, hconf, cp1, hfp, hsp⟩ :=
    resolveCategoryMappings_unpack _ _ _ _ _ _ _ _ hres
  subst hreseq
  simp only at hc hd ⊢
  subst hconf
  have hcpairs : conflict ∈ buildConflicts repaired := hc
  obtain ⟨hlen, hitems⟩ := buildConflicts_mem repaired conflict hcpairs
  obtain ⟨hdmem, hdidx⟩ := buildDecisionLookup_mem decisions conflict.index d hd
  have hget : (buildConflicts repaired).get? conflict.index = some conflict :=
    buildConflicts_get_index repaired conflict hcpairs
  have hgetd : (buildConflicts repaired).get? d.conflictIndex = some conflict := by
    rw [hdidx]; exact hget
  have hne : conflict.items ≠ [] := by
    intro he
    rw [he] at hlen
    simp at hlen
  obtain ⟨t, ht1⟩ := firstPass_targets_of_mem (initialSetup st0 ms tgt).1
    (buildConflicts repaired) decisions _ cp1 d conflict hfp hdmem hact hgetd hne
  have htargets2 : cp2.mergeTargets = cp1.mergeTargets :=
    secondPass_targets_const _ _ _ _ _ _ _ hsp
  have ht1x : getAssoc cp1.mergeTargets conflict.index = some t := by
    rw [← hdidx]; exact ht1
  refine ⟨t, ?_, ?_⟩
  · rw [htargets2]
    exact ht1x
  · intro it hit
    obtain ⟨hkey, hmempairs⟩ := hitems it hit
    rw [← hrep] at hkeys
    obtain ⟨l1, l2, hsplit⟩ := List.append_of_mem hmempairs
    rw [hsplit] at hsp
    obtain ⟨cpA, h1, h2⟩ := secondPass_split _ _ _ _ _ _ _ _ hsp
    unfold secondPass at h2
    split at h2
    · cases h2
    · next cpB hstep =>
      have hAtargets : cpA.mergeTargets = cp1.mergeTargets :=
        secondPass_targets_const _ _ _ _ _ _ _ h1
      have htA : getAssoc cpA.mergeTargets conflict.index = some t := by
        rw [hAtargets]; exact ht1x
      have hfind : (buildConflicts repaired).find?
          (fun c => c.key == conflictKey it.category) = some conflict := by
        have := find?_eq_of_mem_of_nodup_keys (fun c => c.key)
          (buildConflicts repaired) conflict (buildConflicts_keys_nodup repaired)
          hcpairs
        simp only [hkey]
        exact this
      have hpc := processCategory_merge_sets (initialSetup st0 ms tgt).1 cms
        (buildConflicts repaired) (buildDecisionLookup decisions)
        cpA it conflict d t hfind hd hact htA
      rw [hpc] at hstep
      injection hstep with hcpB
      have hmapB : getMapping cpB.categoryMappings (it.datasetId, it.category.id) =
          some t := by
        rw [← hcpB]
        unfold setCatMapping setMapping getMapping
        simp only
        exact getAssoc_setAssoc_self _ _ _
      have hl2keys : ∀ it2 ∈ l2,
          (it.datasetId, it.category.id) ≠ (it2.datasetId, it2.category.id) := by
        rw [hsplit] at hkeys
        rw [List.map_append] at hkeys
        have hsuffix := hkeys.of_append_right
        rw [List.map_cons] at hsuffix
        have hnotmem := (List.nodup_cons.mp hsuffix).1
        intro it2 hit2 heqk
        exact hnotmem (heqk ▸ List.mem_map.mpr ⟨it2, hit2, rfl⟩)
      have hmap2 : getMapping cp2.categoryMappings (it.datasetId, it.category.id) =
          some t := by
        rw [secondPass_mapping_preserved _ _ _ _ _ _ _ h2 _
          (fun it2 h2m => hl2keys it2 h2m)]
        exact hmapB
      exact processGroups_mapping_mono _ _ _ _ _ hpg _ _ hmap2

/-! Lemmas about the checked create operations. -/

theorem dbCreateCategory_ok (st : St) (name : String) (sc : Option String)
    (dsId cocoId : Nat) (c : Category) (st2 : St)
    (h : dbCreateCategory st name sc dsId cocoId = Except.ok (c, st2)) :
    c = ⟨st.nextId, name, sc, dsId, cocoId⟩ ∧
    st2.categories = st.categories ++ [c] ∧
    st2.images = st.images ∧ st2.annotations = st.annotations ∧
    st2.nextId = st.nextId + 1 ∧
    st2.trace = st.trace ++ [WriteOp.createCategory st.nextId dsId] ∧
    st.categories.any (fun q => q.cocoId == cocoId && q.datasetId == dsId) = false := by
  unfold dbCreateCategory at h
  split at h
  · cases h
  · next hguard =>
    injection h with h2
    injection h2 with ha hb
    subst ha
    subst hb
    exact ⟨rfl, rfl, rfl, rfl, rfl, rfl, by simpa using hguard⟩

theorem dbCreateImage_ok (st : St) (fileName : String) (width height : Nat)
    (dateCaptured license : Option Nat) (dsId cocoId : Nat)
    (filePath : Option String) (i : ImageRec) (st2 : St)
    (h : dbCreateImage st fileName width height dateCaptured license dsId cocoId
      filePath = Except.ok (i, st2)) :
    i = ⟨st.nextId, fileName, width, height, dateCaptured, license, dsId, cocoId,
      filePath, none⟩ ∧
    st2.categories = st.categories ∧
    st2.images = st.images ++ [i] ∧ st2.annotations = st.annotations ∧
    st2.nextId = st.nextId + 1 ∧
    st2.trace = st.trace ++ [WriteOp.createImage st.nextId dsId] := by
  unfold dbCreateImage at h
  split at h
  · cases h
  · injection h with h2
    injection h2 with ha hb
    subst ha
    subst hb
    exact ⟨rfl, rfl, rfl, rfl, rfl, rfl⟩

theorem dbCreateAnn_ok (st : St) (imageId categoryId : Nat) (bbox : List Int)
    (area : Int) (iscrowd : Nat) (dsId cocoId : Nat) (a : AnnRec) (st2 : St)
    (h : dbCreateAnn st imageId categoryId bbox area iscrowd dsId cocoId =
      Except.ok (a, st2)) :
    a = ⟨st.nextId, imageId, categoryId, bbox, area, iscrowd, dsId, cocoId⟩ ∧
    st2.categories = st.categories ∧ st2.images = st.images ∧
    st2.annotations = st.annotations ++ [a] ∧
    st2.nextId = st.nextId + 1 ∧
    st2.trace = st.trace ++ [WriteOp.createAnn st.nextId dsId] := by
  unfold dbCreateAnn at h
  split at h
  · cases h
  · injection h with h2
    injection h2 with ha hb
    subst ha
    subst hb
    exact ⟨rfl, rfl, rfl, rfl, rfl, rfl⟩

/-! C8: no category with an already-present target-dataset name is created
by the mapping resolution under merge decisions and merge_by_name. -/

def NamePreserved (X : String) (base : List Category) (cp : CatPhase) : Prop :=
  X ∈ cp.existingCategories.map (fun c => c.name) ∧
  ∀ c ∈ cp.st.categories, c ∈ base ∨ c.name ≠ X

theorem findOrCreate_name_preserved (finalId : Nat) (cp : CatPhase)
    (name : String) (sc : Option String) (cocoId : Nat) (fid : Nat)
    (cp2 : CatPhase) (X : String) (base : List Category)
    (h : findOrCreate finalId cp name sc cocoId = Except.ok (fid, cp2))
    (hinv : NamePreserved X base cp) : NamePreserved X base cp2 := by
  unfold findOrCreate at h
  split at h
  · cases h; exact hinv
  · next hfind =>
    split at h
    · cases h
    · next newCategory st2 hcreate =>
      injection h with h2
      injection h2 with ha hb
      subst hb
      obtain ⟨hcat, hcats, _, _, _, _, _⟩ := dbCreateCategory_ok _ _ _ _ _ _ _ hcreate
      have hnameX : name ≠ X := by
        intro he
        obtain ⟨cx, hcx, hcxname⟩ := List.mem_map.mp hinv.1
        have := List.find?_eq_none.mp hfind cx hcx
        apply this
        simp [hcxname, he]
      constructor
      · simp only
        rw [List.map_append]
        exact List.mem_append_left _ hinv.1
      · intro c hc
        simp only at hc
        rw [hcats] at hc
        rcases List.mem_append.mp hc with hc | hc
        · exact hinv.2 c hc
        · right
          simp only [List.mem_singleton] at hc
          rw [hc, hcat]
          exact hnameX

theorem processMergeDecision_name_preserved (finalId : Nat)
    (conflicts : List Conflict) (cp : CatPhase) (d : CategoryMappingDecision)
    (cp2 : CatPhase) (X : String) (base : List Category)
    (h : processMergeDecision finalId conflicts cp d = Except.ok cp2)
    (hinv : NamePreserved X base cp) : NamePreserved X base cp2 := by
  unfold processMergeDecision at h
  split at h
  · split at h
    · cases h; exact hinv
    · split at h
      · cases h
      · split at h
        · cases h; exact hinv
        · simp only [] at h
          split at h
          · cases h
            exact ⟨hinv.1, hinv.2⟩
          · next hfind =>
            split at h
            · cases h
            · next newCategory st2 hcreate =>
              cases h
              obtain ⟨hcat, hcats, _, _, _, _, _⟩ :=
                dbCreateCategory_ok _ _ _ _ _ _ _ hcreate
              constructor
              · simp only
                rw [List.map_append]
                exact List.mem_append_left _ hinv.1
              · intro c hc
                simp only at hc
                rw [hcats] at hc
                rcases List.mem_append.mp hc with hc | hc
                · exact hinv.2 c hc
                · right
                  simp only [List.mem_singleton] at hc
                  rw [hc, hcat]
                  intro he
                  simp only at he
                  obtain ⟨cx, hcx, hcxname⟩ := List.mem_map.mp hinv.1
                  have hno := List.find?_eq_none.mp hfind cx hcx
                  apply hno
                  simp [hcxname, he]
  · cases h; exact hinv

theorem firstPass_name_preserved (finalId : Nat) (conflicts : List Conflict)
    (ds : List CategoryMappingDecision) (cp cp2 : CatPhase) (X : String)
    (base : List Category)
    (h : firstPass finalId conflicts ds cp = Except.ok cp2)
    (hinv : NamePreserved X base cp) : NamePreserved X base cp2 := by
  induction ds generalizing cp with
  | nil => cases h; exact hinv
  | cons d ds ih =>
    unfold firstPass at h
    split at h
    · cases h
    · next cp0 hstep =>
      exact ih cp0 h (processMergeDecision_name_preserved _ _ _ _ _ _ _ hstep hinv)

theorem applyUserDecision_merge_name_preserved (finalId : Nat) (cp : CatPhase)
    (it : ConflictItem) (conflict : Conflict) (d : CategoryMappingDecision)
    (cp2 : CatPhase) (X : String) (base : List Category)
    (hact : d.action = DecisionAction.merge)
    (h : applyUserDecision finalId cp it conflict d = Except.ok cp2)
    (hinv : NamePreserved X base cp) : NamePreserved X base cp2 := by
  unfold applyUserDecision at h
  split at h
  · split at h
    · cases h; exact hinv
    · cases h; exact hinv
  · next heq => rw [hact] at heq; cases heq
  · next heq => rw [hact] at heq; cases heq

theorem applyDefaultStrategy_mbn_name_preserved (finalId : Nat)
    (cp : CatPhase) (it : ConflictItem) (cp2 : CatPhase) (X : String)
    (base : List Category)
    (h : applyDefaultStrategy finalId CategoryMergeStrategy.merge_by_name cp it =
      Except.ok cp2)
    (hinv : NamePreserved X base cp) : NamePreserved X base cp2 := by
  simp only [applyDefaultStrategy] at h
  split at h
  · cases h
  · next hfoc =>
    cases h
    have hres := findOrCreate_name_preserved _ _ _ _ _ _ _ _ _ hfoc hinv
    exact ⟨hres.1, hres.2⟩

theorem processCategory_mbn_name_preserved (finalId : Nat)
    (conflicts : List Conflict) (dl : List (Nat × CategoryMappingDecision))
    (cp : CatPhase) (it : ConflictItem) (cp2 : CatPhase) (X : String)
    (base : List Category)
    (hdl : ∀ idx d, getAssoc dl idx = some d → d.action = DecisionAction.merge)
    (h : processCategory finalId CategoryMergeStrategy.merge_by_name conflicts
      dl cp it = Except.ok cp2)
    (hinv : NamePreserved X base cp) : NamePreserved X base cp2 := by
  unfold processCategory at h
  split at h
  · next conflict hfind =>
    split at h
    · next d hd2 =>
      exact applyUserDecision_merge_name_preserved _ _ _ _ _ _ _ _
        (hdl conflict.index d hd2) h hinv
    · exact applyDefaultStrategy_mbn_name_preserved _ _ _ _ _ _ h hinv
  · exact applyDefaultStrategy_mbn_name_preserved _ _ _ _ _ _ h hinv

theorem secondPass_mbn_name_preserved (finalId : Nat)
    (conflicts : List Conflict) (dl : List (Nat × CategoryMappingDecision))
    (l : List ConflictItem) (cp cp2 : CatPhase) (X : String)
    (base : List Category)
    (hdl : ∀ idx d, getAssoc dl idx = some d → d.action = DecisionAction.merge)
    (h : secondPass finalId CategoryMergeStrategy.merge_by_name conflicts dl l
      cp = Except.ok cp2)
    (hinv : NamePreserved X base cp) : NamePreserved X base cp2 := by
  induction l generalizing cp with
  | nil => cases h; exact hinv
  | cons it l ih =>
    unfold secondPass at h
    split at h
    · cases h
    · next cp0 hstep =>
      exact ih cp0 h
        (processCategory_mbn_name_preserved _ _ _ _ _ _ _ _ hdl hstep hinv)

/-- C8: category target resolution is idempotent with respect to categories
already present in the output dataset. Under the merge_by_name default
strategy and merge decisions, if the output dataset already holds a category
named X when the resolver starts, the resolver creates no further category
named X: every category in the resulting store either predates the run or
has a different name. Running the resolution twice therefore cannot create
a duplicate of X. -/
theorem C8_idempotent_target_reuse
    (st1 : St) (finalId : Nat) (srcs : List SrcDataset)
    (decisions : List CategoryMappingDecision) (cp2 : CatPhase)
    (repaired : List SrcDataset) (conflicts : List Conflict)
    (X : String) (c0 : Category)
    (hrun : resolveCategoryMappings st1 finalId srcs
      CategoryMergeStrategy.merge_by_name decisions =
        Except.ok (cp2, repaired, conflicts))
    (hdec : ∀ d ∈ decisions, d.action = DecisionAction.merge)
    (hc0 : c0 ∈ st1.categories) (hc0ds : c0.datasetId = finalId)
    (hc0name : c0.name = X) :
    ∀ c ∈ cp2.st.categories, c ∈ st1.categories ∨ c.name ≠ X := by
  obtain ⟨hrep, hconf, cp1, hfp, hsp⟩ :=
    resolveCategoryMappings_unpack _ _ _ _ _ _ _ _ hrun
  have hinv0 : NamePreserved X st1.categories
      ⟨st1, st1.categories.filter (fun c => c.datasetId == finalId), [], []⟩ := by
    constructor
    · simp only
      apply List.mem_map.mpr
      refine ⟨c0, ?_, hc0name⟩
      apply List.mem_filter.mpr
      exact ⟨hc0, by simp [hc0ds]⟩
    · intro c hc
      exact Or.inl hc
  have hinv1 := firstPass_name_preserved _ _ _ _ _ _ _ hfp hinv0
  have hdl : ∀ idx d, getAssoc (buildDecisionLookup decisions) idx = some d →
      d.action = DecisionAction.merge := by
    intro idx d hd2
    exact hdec d (buildDecisionLookup_mem decisions idx d hd2).1
  have hinv2 := secondPass_mbn_name_preserved _ _ _ _ _ _ _ _ hdl hsp hinv1
  exact hinv2.2

/-! C2: the orphan repair pass appends any category found in the store,
with no ownership check. -/

/-- A category owned by dataset 99 while the source dataset has id 1. -/
def c2ForeignCategory : Category := ⟨7, "person", none, 99, 1⟩

/-- The record store table for the C2 scenario. -/
def c2Table : List Category := [c2ForeignCategory]

/-- A source dataset with an empty category list whose only annotation
references category id 7. -/
def c2SourceDataset : SrcDataset :=
  ⟨1, some "alpha", [],
    [⟨100, "a.png", 10, 10, none, none, 1, some "d/a.png", none,
      [⟨200, 1, [], 0, 0, 7⟩]⟩]⟩

/-- C2 counterexample: the claim says a category found in the store but
owned by a different dataset is NOT appended by the orphan repair pass. In
fact the pass performs no ownership check: here the referenced category id 7
belongs to dataset 99, not to source dataset 1, yet it IS appended to the
working category list. -/
theorem C2_counterexample :
    (repairOrphans c2Table c2SourceDataset).categories = [c2ForeignCategory] ∧
    c2ForeignCategory.datasetId ≠ c2SourceDataset.id := by
  constructor
  · rfl
  · decide

/-- C2 amended: in the orphan repair pass, every category id referenced by
a source dataset's annotations but absent from its loaded category list is
looked up in the record store, and the found category is appended to the
dataset's working category list whenever the lookup succeeds — regardless
of which dataset owns the found category. -/
theorem C2_orphan_repair_appends_any_found (table : List Category)
    (ds : SrcDataset) (i : Nat) (c : Category)
    (href : i ∈ referencedCategoryIds ds)
    (hnot : i ∉ ds.categories.map (fun c => c.id))
    (hfound : table.find? (fun c2 => c2.id == i) = some c) :
    c ∈ (repairOrphans table ds).categories := by
  unfold repairOrphans
  simp only
  apply List.mem_append_right
  apply List.mem_filterMap.mpr
  refine ⟨i, ?_, hfound⟩
  apply List.mem_filter.mpr
  refine ⟨href, ?_⟩
  simp only [decide_eq_true_eq]
  intro hcontains
  exact hnot (by simpa using hcontains)

/-! Characterization of the image rows written by createImageRecord. -/

theorem processAnn_images (newImageId finalId srcDsId : Nat)
    (srcDsName : Option String) (imageFileName : String) (s : CirState)
    (res : AnnResults) (a : SrcAnn) :
    (processAnn newImageId finalId srcDsId srcDsName imageFileName
      s res a).1.st.images = s.st.images := by
  unfold processAnn
  split
  · unfold attemptCreateAnn
    split
    · next hcr =>
      obtain ⟨_, _, him, _, _, _⟩ := dbCreateAnn_ok _ _ _ _ _ _ _ _ _ _ hcr
      simpa using him
    · rfl
  · split
    · split
      · split
        · rfl
        · next hcr =>
          obtain ⟨_, _, him, _, _, _, _⟩ := dbCreateCategory_ok _ _ _ _ _ _ _ hcr
          unfold attemptCreateAnn
          split
          · next hcr2 =>
            obtain ⟨_, _, him2, _, _, _⟩ := dbCreateAnn_ok _ _ _ _ _ _ _ _ _ _ hcr2
            simp only at him2 ⊢
            rw [him2]
            simpa using him
          · simpa using him
      · split
        · rfl
        · next hcr =>
          obtain ⟨_, _, him, _, _, _, _⟩ := dbCreateCategory_ok _ _ _ _ _ _ _ hcr
          unfold attemptCreateAnn
          split
          · next hcr2 =>
            obtain ⟨_, _, him2, _, _, _⟩ := dbCreateAnn_ok _ _ _ _ _ _ _ _ _ _ hcr2
            simp only at him2 ⊢
            rw [him2]
            simpa using him
          · simpa using him
    · split
      · rfl
      · next hcr =>
        obtain ⟨_, _, him, _, _, _, _⟩ := dbCreateCategory_ok _ _ _ _ _ _ _ hcr
        unfold attemptCreateAnn
        split
        · next hcr2 =>
          obtain ⟨_, _, him2, _, _, _⟩ := dbCreateAnn_ok _ _ _ _ _ _ _ _ _ _ hcr2
          simp only at him2 ⊢
          rw [him2]
          simpa using him
        · simpa using him

theorem processAnnList_images (newImageId finalId srcDsId : Nat)
    (srcDsName : Option String) (imageFileName : String)
    (anns : List SrcAnn) (s : CirState) (res : AnnResults) :
    (processAnnList newImageId finalId srcDsId srcDsName imageFileName anns
      s res).1.st.images = s.st.images := by
  induction anns generalizing s res with
  | nil => rfl
  | cons a anns ih =>
    unfold processAnnList
    rw [ih]
    exact processAnn_images _ _ _ _ _ _ _ _

/-- The thumbnail raw-SQL update rewrites only the thumbnailPath field. -/
theorem thumbUpd_fields (imageId : Nat) (p : String) (im : ImageRec) :
    (if im.id == imageId then { im with thumbnailPath := some p } else im).id = im.id ∧
    (if im.id == imageId then { im with thumbnailPath := some p } else im).fileName = im.fileName ∧
    (if im.id == imageId then { im with thumbnailPath := some p } else im).datasetId = im.datasetId ∧
    (if im.id == imageId then { im with thumbnailPath := some p } else im).cocoId = im.cocoId := by
  split <;> exact ⟨rfl, rfl, rfl, rfl⟩

theorem createImageRecord_images (image : SrcImage) (srcDsId : Nat)
    (srcDsName : Option String) (finalId : Nat) (finalFileName : String)
    (s : CirState) (r : AnnResults) (s2 : CirState)
    (h : createImageRecord image srcDsId srcDsName finalId finalFileName s =
      Except.ok (r, s2)) :
    ∃ f rec, s2.st.images = s.st.images.map f ++ [rec] ∧
      (∀ im : ImageRec, (f im).id = im.id ∧ (f im).fileName = im.fileName ∧
        (f im).datasetId = im.datasetId ∧ (f im).cocoId = im.cocoId) ∧
      rec.fileName = finalFileName ∧ rec.datasetId = finalId ∧
      rec.cocoId = image.cocoId + srcDsId * 100000 := by
  unfold createImageRecord at h
  split at h
  · cases h
  · next newImage st1 hci =>
    simp only [] at h
    injection h with h2
    have hs2 : s2 = (processAnnList newImage.id finalId srcDsId srcDsName
        image.fileName image.annotations
        ⟨if truthyStr image.thumbnailPath then
            dbUpdateImageThumbnail st1 newImage.id
              ("dataset-" ++ toString finalId ++ "/thumbnails/" ++ finalFileName)
          else st1,
          if truthyStr image.filePath then
            s.copiedFiles ++
              [(image.filePath.getD "",
                "dataset-" ++ toString finalId ++ "/" ++ finalFileName)]
          else s.copiedFiles,
          s.categoryMappings⟩ ⟨0, 0, 0, []⟩).1 :=
      (congrArg Prod.snd h2).symm
    obtain ⟨hi, hcats, himgs, _, _, _⟩ := dbCreateImage_ok _ _ _ _ _ _ _ _ _ _ _ hci
    rw [hs2, processAnnList_images]
    simp only
    by_cases hth : truthyStr image.thumbnailPath = true
    · rw [if_pos hth]
      unfold dbUpdateImageThumbnail
      simp only
      rw [himgs, List.map_append]
      refine ⟨fun im => if im.id == newImage.id then
          { im with thumbnailPath := some ("dataset-" ++ toString finalId ++
            "/thumbnails/" ++ finalFileName) } else im,
        if newImage.id == newImage.id then
          { newImage with thumbnailPath := some ("dataset-" ++ toString finalId ++
            "/thumbnails/" ++ finalFileName) } else newImage, ?_, ?_, ?_, ?_, ?_⟩
      · simp
      · intro im
        exact thumbUpd_fields _ _ im
      · rw [(thumbUpd_fields newImage.id _ newImage).2.1, hi]
      · rw [(thumbUpd_fields newImage.id _ newImage).2.2.1, hi]
      · rw [(thumbUpd_fields newImage.id _ newImage).2.2.2, hi]
    · rw [if_neg hth]
      refine ⟨id, newImage, ?_, fun im => ⟨rfl, rfl, rfl, rfl⟩, ?_, ?_, ?_⟩
      · rw [himgs, List.map_id]
      · rw [hi]
      · rw [hi]
      · rw [hi]

theorem runCreateImageRecord_ok (mp : MergePhase) (item : GroupItem)
    (finalId : Nat) (fn : String) (mp2 : MergePhase)
    (h : runCreateImageRecord mp item finalId fn = Except.ok mp2) :
    mp2.duplicateWarnings = mp.duplicateWarnings ∧
    ∃ f rec, mp2.st.images = mp.st.images.map f ++ [rec] ∧
      (∀ im : ImageRec, (f im).id = im.id ∧ (f im).fileName = im.fileName ∧
        (f im).datasetId = im.datasetId ∧ (f im).cocoId = im.cocoId) ∧
      rec.fileName = fn ∧ rec.datasetId = finalId ∧
      rec.cocoId = item.image.cocoId + item.dataset.id * 100000 := by
  unfold runCreateImageRecord at h
  split at h
  · cases h
  · next r s2 hcir =>
    cases h
    exact ⟨rfl, createImageRecord_images _ _ _ _ _ _ _ _ hcir⟩

/-- C4: under handleDuplicateImages = keep_best_annotated exactly one image
per duplicate group survives, namely the reduce-selected member: highest
per-image annotation count, ties broken by the larger whole-dataset
annotation total. For per-image counts [2, 5, 5] from datasets with totals
[50, 30, 80], the survivor is the third member (total 80): exactly one new
image row is appended, carrying the survivor's data, and the recorded
duplicate warning names the survivor's dataset. -/
theorem C4_keep_best_annotated (finalId : Nat) (fileName : String)
    (i1 i2 i3 : GroupItem) (mp mp2 : MergePhase)
    (h : processGroup HandleDuplicateImages.keep_best_annotated finalId
      fileName [i1, i2, i3] mp = Except.ok mp2)
    (hc1 : i1.annotationCount = 2) (hc2 : i2.annotationCount = 5)
    (hc3 : i3.annotationCount = 5)
    (ht1 : datasetTotalAnnotations i1.dataset = 50)
    (ht2 : datasetTotalAnnotations i2.dataset = 30)
    (ht3 : datasetTotalAnnotations i3.dataset = 80) :
    reduceKeepBest i1 [i2, i3] = i3 ∧
    (∃ w, mp2.duplicateWarnings = mp.duplicateWarnings ++ [w] ∧
      w.selectedDataset = some (jsOrStr i3.dataset.name "Unnamed Dataset")) ∧
    ∃ f rec, mp2.st.images = mp.st.images.map f ++ [rec] ∧
      (∀ im : ImageRec, (f im).fileName = im.fileName ∧
        (f im).datasetId = im.datasetId) ∧
      rec.fileName = fileName ∧ rec.datasetId = finalId ∧
      rec.cocoId = i3.image.cocoId + i3.dataset.id * 100000 := by
  have hstep1 : keepBestStep i1 i2 = i2 := by
    unfold keepBestStep
    rw [hc1, hc2]
    norm_num
  have hstep2 : keepBestStep i2 i3 = i3 := by
    unfold keepBestStep
    rw [hc2, hc3, ht2, ht3]
    norm_num
  have hsel : reduceKeepBest i1 [i2, i3] = i3 := by
    show reduceKeepBest (keepBestStep i1 i2) [i3] = i3
    rw [hstep1]
    show keepBestStep i2 i3 = i3
    exact hstep2
  simp only [processGroup] at h
  rw [hsel] at h
  obtain ⟨hw, f, rec, himg, hf, hfn, hds, hcoco⟩ :=
    runCreateImageRecord_ok _ _ _ _ _ h
  refine ⟨hsel, ⟨⟨fileName, [i1, i2, i3].length,
      [i1, i2, i3].map (fun it => jsOrStr it.dataset.name "Unnamed Dataset"),
      some (jsOrStr i3.dataset.name "Unnamed Dataset"),
      some ("Selected from " ++ jsName i3.dataset.name ++ " (" ++
        toString i3.annotationCount ++ " annotations)")⟩, ?_, rfl⟩,
    f, rec, himg, fun im => ⟨(hf im).2.1, (hf im).2.2.1⟩, hfn, hds, hcoco⟩
  rw [hw]

/-- C10: under handleDuplicateImages = skip, when the target dataset already
holds an image with the group's fileName, every member of the group is
skipped — the store is untouched and only a DuplicateWarning with reason
"All instances skipped (already exists in target)" is appended; when no such
image exists, exactly the first group member survives, with reason "First
instance kept, others skipped". -/
theorem C10_skip_preexisting_target (finalId : Nat) (fileName : String)
    (g0 g1 : GroupItem) (grest : List GroupItem) (mp mp2 : MergePhase)
    (h : processGroup HandleDuplicateImages.skip finalId fileName
      (g0 :: g1 :: grest) mp = Except.ok mp2) :
    (mp.st.images.any (fun img =>
        img.datasetId == finalId && img.fileName == fileName) = true →
      mp2 = { mp with duplicateWarnings := mp.duplicateWarnings ++
        [⟨fileName, (g0 :: g1 :: grest).length,
          (g0 :: g1 :: grest).map (fun it => jsOrStr it.dataset.name "Unnamed Dataset"),
          none, some "All instances skipped (already exists in target)"⟩] }) ∧
    (mp.st.images.any (fun img =>
        img.datasetId == finalId && img.fileName == fileName) = false →
      (∃ w, mp2.duplicateWarnings = mp.duplicateWarnings ++ [w] ∧
        w.selectedDataset = some (jsOrStr g0.dataset.name "Unnamed Dataset") ∧
        w.reason = some "First instance kept, others skipped") ∧
      ∃ f rec, mp2.st.images = mp.st.images.map f ++ [rec] ∧
        (∀ im : ImageRec, (f im).fileName = im.fileName ∧
          (f im).datasetId = im.datasetId) ∧
        rec.fileName = fileName ∧ rec.datasetId = finalId ∧
        rec.cocoId = g0.image.cocoId + g0.dataset.id * 100000) := by
  simp only [processGroup] at h
  constructor
  · intro hex
    rw [if_pos hex] at h
    injection h with h2
    exact h2.symm
  · intro hex
    rw [if_neg (by rw [hex]; exact Bool.false_ne_true)] at h
    obtain ⟨hw, f, rec, himg, hf, hfn, hds, hcoco⟩ :=
      runCreateImageRecord_ok _ _ _ _ _ h
    refine ⟨⟨_, by rw [hw], rfl, rfl⟩, f, rec, himg,
      fun im => ⟨(hf im).2.1, (hf im).2.2.1⟩, hfn, hds, hcoco⟩

/-- C3: when an annotation's categoryId resolves to no category anywhere —
no mapping and no record in the store — the merge synthesizes a placeholder
category named `[MISSING]_{datasetName}_CategoryID_{id}` in the output
dataset and copies the annotation under it (success incremented), rather
than dropping the annotation. The two `any = false` hypotheses state that
the checked creates hit no unique-constraint collision. -/
theorem C3_true_orphan_placeholder (newImageId finalId srcDsId : Nat)
    (srcDsName : Option String) (imageFileName : String) (s : CirState)
    (res : AnnResults) (a : SrcAnn)
    (hmiss : getMapping s.categoryMappings (srcDsId, a.categoryId) = none)
    (hnowhere : s.st.categories.find? (fun c => c.id == a.categoryId) = none)
    (hcoco : s.st.categories.any (fun c =>
      c.cocoId == a.categoryId + srcDsId * 10000 && c.datasetId == finalId) = false)
    (hanncoco : s.st.annotations.any (fun r =>
      r.cocoId == a.cocoId + srcDsId * 1000000 && r.datasetId == finalId) = false) :
    ∃ cat ann,
      cat ∈ (processAnn newImageId finalId srcDsId srcDsName imageFileName
        s res a).1.st.categories ∧
      cat.name = "[MISSING]_" ++ jsOrStr srcDsName "Unknown" ++ "_CategoryID_" ++
        toString a.categoryId ∧
      cat.datasetId = finalId ∧
      ann ∈ (processAnn newImageId finalId srcDsId srcDsName imageFileName
        s res a).1.st.annotations ∧
      ann.categoryId = cat.id ∧ ann.imageId = newImageId ∧
      ann.datasetId = finalId ∧
      (processAnn newImageId finalId srcDsId srcDsName imageFileName
        s res a).2.success = res.success + 1 := by
  unfold processAnn
  simp only [hmiss, dbFindCategory, hnowhere]
  unfold dbCreateCategory
  rw [if_neg (by rw [hcoco]; exact Bool.false_ne_true)]
  simp only
  unfold attemptCreateAnn
  unfold dbCreateAnn
  simp only
  rw [if_neg (by rw [hanncoco]; exact Bool.false_ne_true)]
  simp only
  refine ⟨⟨s.st.nextId,
    "[MISSING]_" ++ jsOrStr srcDsName "Unknown" ++ "_CategoryID_" ++
      toString a.categoryId, none, finalId, a.categoryId + srcDsId * 10000⟩,
    ⟨s.st.nextId + 1, newImageId, s.st.nextId, a.bbox, a.area, a.iscrowd,
      finalId, a.cocoId + srcDsId * 1000000⟩,
    ?_, ?_, ?_, ?_, ?_, ?_, ?_, ?_⟩ <;>
  first
    | rfl
    | trivial
    | exact List.mem_append_right _ (List.mem_singleton.mpr rfl)

/-! C5: the rename strategy's disambiguated filenames. -/

/-- A source image named img.png with one annotation. -/
def c5Image (i coco catId : Nat) : SrcImage :=
  ⟨i, "img.png", 5, 5, none, none, coco, some ("src/" ++ toString i), none,
    [⟨i * 10, i, [], 0, 0, catId⟩]⟩

/-- The three source datasets of the rename scenario. -/
def c5Dataset1 : SrcDataset := ⟨1, some "alpha", [], [c5Image 101 1 11]⟩

/-- Second dataset, named beta. -/
def c5Dataset2 : SrcDataset := ⟨2, some "beta", [], [c5Image 102 2 12]⟩

/-- Third dataset, named gamma. -/
def c5Dataset3 : SrcDataset := ⟨3, some "gamma", [], [c5Image 103 3 13]⟩

/-- The duplicate group of three images all named img.png. -/
def c5Group : List GroupItem :=
  [⟨c5Image 101 1 11, c5Dataset1, 1⟩, ⟨c5Image 102 2 12, c5Dataset2, 1⟩,
    ⟨c5Image 103 3 13, c5Dataset3, 1⟩]

/-- Starting phase state: empty target tables, all three category mappings
present. -/
def c5Start : MergePhase :=
  ⟨⟨1000, [], [], [], []⟩, [((1, 11), 501), ((2, 12), 502), ((3, 13), 503)],
    [], [], ⟨0, 0, 0, []⟩⟩

/-- The rename run on the group. -/
def c5Run : Except String MergePhase :=
  processGroup HandleDuplicateImages.rename 500 "img.png" c5Group c5Start

/-- The resulting phase state. -/
def c5Result : MergePhase := c5Run.toOption.getD default

/-- C5 counterexample: the claim says members after the first receive the
filename `{base}_{dataset}{ext}` — for the second member, from the dataset
named beta, that would be img_beta.png. The code instead numbers the copies:
the created filenames are img.png, img_2.png, img_3.png, and no image named
img_beta.png exists. -/
theorem C5_counterexample :
    c5Run = Except.ok c5Result ∧
    c5Result.st.images.map (fun r => r.fileName) =
      ["img.png", "img_2.png", "img_3.png"] ∧
    "img_beta.png" ∉ c5Result.st.images.map (fun r => r.fileName) := by
  refine ⟨by decide, by decide, by decide⟩

/-- C5 amended: under rename every member of the duplicate group survives as
its own target image — for the three same-named source images, three target
images with pairwise distinct filenames img.png, img_2.png (member at
position 1 gets suffix _2) and img_3.png — and the union of their
annotations is preserved: all three annotations are copied. -/
theorem C5_rename_keeps_all_amended :
    c5Run = Except.ok c5Result ∧
    c5Result.st.images.length = 3 ∧
    c5Result.st.images.map (fun r => r.fileName) =
      ["img.png", "img_2.png", "img_3.png"] ∧
    (c5Result.st.images.map (fun r => r.fileName)).Nodup ∧
    c5Result.st.annotations.length = 3 ∧
    c5Result.totalAnnotationResults.success = 3 ∧
    c5Result.totalAnnotationResults.failed = 0 ∧
    c5Result.totalAnnotationResults.skippedNoCategory = 0 := by
  refine ⟨by decide, by decide, by decide, by decide, by decide, by decide,
    by decide, by decide⟩

/-! C6: the analyze endpoint reports name-conflicts inside the single
conflicts array. -/

/-- First analyze source: categories (a, cocoId 1) and (b, cocoId 1). -/
def c6Source1 : AnalyzeSource :=
  ⟨1, some "s1", [(⟨1, "a", none, 1, 1⟩, 3), (⟨2, "b", none, 1, 1⟩, 1)]⟩

/-- Second analyze source: categories (a, cocoId 1) and (b, cocoId 2). -/
def c6Source2 : AnalyzeSource :=
  ⟨2, some "s2", [(⟨3, "a", none, 2, 1⟩, 2), (⟨4, "b", none, 2, 2⟩, 1)]⟩

/-- The analyze run of the C6 scenario. -/
def c6Analysis : AnalyzeResult :=
  analyzeMerge [] [c6Source1, c6Source2] CategoryMergeStrategy.merge_by_name

/-- C6 counterexample: the claim says name-conflicts are reported
independently of the exact-match conflicts list, in a separate nameConflicts
list. In the response, `nameConflicts` is only a count and the name-conflict
entries are appended to the single `conflicts` array: here one exact match
and one name-conflict produce a conflicts array of length 2 whose last entry
is the name-conflict (cocoId -1, keep_separate). -/
theorem C6_counterexample :
    c6Analysis.exactMatches = 1 ∧
    c6Analysis.nameConflicts = 1 ∧
    c6Analysis.conflicts.length = 2 ∧
    (c6Analysis.conflicts.getLastD default).cocoId = -1 ∧
    (c6Analysis.conflicts.getLastD default).suggestedAction =
      DecisionAction.keep_separate := by
  refine ⟨by decide, by decide, by decide, by decide, by decide⟩

/-- C6 amended: every group of categories sharing the same name but spanning
more than one distinct cocoId is reported as a name-conflict whose suggested
action is always keep_separate (with sentinel cocoId -1), and these
name-conflict entries are appended to the single `conflicts` array after the
exact-match conflicts; the response's `nameConflicts` field carries their
count, not a separate list. -/
theorem C6_name_conflicts_appended (targetCategories : List (Category × Nat))
    (sources : List AnalyzeSource) (strategy : CategoryMergeStrategy) :
    (analyzeMerge targetCategories sources strategy).conflicts =
      exactConflictsOf strategy (buildAllCategories targetCategories sources) ++
        nameConflictsOf (buildAllCategories targetCategories sources) ∧
    (analyzeMerge targetCategories sources strategy).nameConflicts =
      (nameConflictsOf (buildAllCategories targetCategories sources)).length ∧
    (∀ c ∈ nameConflictsOf (buildAllCategories targetCategories sources),
      c.suggestedAction = DecisionAction.keep_separate ∧ c.cocoId = -1) ∧
    ∀ g ∈ groupByKey (fun c => c.name)
        (buildAllCategories targetCategories sources),
      g.2.length > 1 →
      (dedupNats (g.2.map (fun c => c.cocoId))).length > 1 →
      mkNameConflict g.1 g.2 (dedupNats (g.2.map (fun c => c.cocoId))) ∈
        (analyzeMerge targetCategories sources strategy).conflicts := by
  refine ⟨rfl, rfl, ?_, ?_⟩
  · intro c hc
    unfold nameConflictsOf at hc
    obtain ⟨g, hg, hge⟩ := List.mem_filterMap.mp hc
    simp only [] at hge
    split at hge
    · split at hge
      · injection hge with hge
        rw [← hge]
        exact ⟨rfl, rfl⟩
      · cases hge
    · cases hge
  · intro g hg hlen hids
    show _ ∈ exactConflictsOf strategy _ ++ nameConflictsOf _
    apply List.mem_append_right
    unfold nameConflictsOf
    apply List.mem_filterMap.mpr
    refine ⟨g, hg, ?_⟩
    rw [if_pos hlen]
    simp only
    rw [if_pos hids]

/-! Shared invariant for the whole run: category (cocoId, datasetId)
uniqueness, id freshness, mapping targets living in the output dataset,
created annotations referencing output-dataset rows, and every trace entry
targeting the output dataset. -/

/-- The datasetId of the row touched by a write. -/
def opDatasetId : WriteOp → Nat
  | WriteOp.createDataset i => i
  | WriteOp.createCategory _ d => d
  | WriteOp.createImage _ d => d
  | WriteOp.updateImageThumbnail _ d => d
  | WriteOp.createAnn _ d => d

/-- The @@unique([cocoId, datasetId]) constraint as a predicate. -/
def UniqueCatPairs (l : List Category) : Prop :=
  l.Pairwise (fun a b => a.cocoId = b.cocoId → a.datasetId ≠ b.datasetId)

/-- The record-store invariant carried through the run, relative to the
annotation rows and trace present before the run started. -/
structure PhaseInv (outId : Nat) (abase : List AnnRec) (tbase : List WriteOp)
    (st : St) (mappings : List ((Nat × Nat) × Nat)) : Prop where
  uc : UniqueCatPairs st.categories
  fresh_cat : ∀ c ∈ st.categories, c.id < st.nextId
  fresh_img : ∀ i ∈ st.images, i.id < st.nextId
  maps : ∀ p ∈ mappings, ∃ c ∈ st.categories, c.id = p.2 ∧ c.datasetId = outId
  anns : ∀ a ∈ st.annotations, a ∈ abase ∨
    (a.datasetId = outId ∧
      (∃ c ∈ st.categories, c.id = a.categoryId ∧ c.datasetId = outId) ∧
      (∃ i ∈ st.images, i.id = a.imageId ∧ i.datasetId = outId))
  tr : ∀ op ∈ st.trace, op ∈ tbase ∨ opDatasetId op = outId

theorem uc_append (l : List Category) (c : Category)
    (hl : UniqueCatPairs l)
    (hg : l.any (fun q => q.cocoId == c.cocoId && q.datasetId == c.datasetId) = false) :
    UniqueCatPairs (l ++ [c]) := by
  rw [UniqueCatPairs, List.pairwise_append]
  refine ⟨hl, List.pairwise_singleton _ _, ?_⟩
  intro a ha b hb
  simp only [List.mem_singleton] at hb
  intro hcoco hds
  have hmem : (l.any fun q => q.cocoId == c.cocoId && q.datasetId == c.datasetId)
      = true := by
    apply List.any_eq_true.mpr
    refine ⟨a, ha, ?_⟩
    show (a.cocoId == c.cocoId && a.datasetId == c.datasetId) = true
    rw [← hb, hcoco, hds]
    simp
  rw [hg] at hmem
  cases hmem

theorem dbCreateCategory_inv (outId : Nat) (abase : List AnnRec)
    (tbase : List WriteOp) (st : St) (m : List ((Nat × Nat) × Nat))
    (name : String) (sc : Option String) (cocoId : Nat) (c : Category)
    (st2 : St) (h : dbCreateCategory st name sc outId cocoId = Except.ok (c, st2))
    (hinv : PhaseInv outId abase tbase st m) :
    PhaseInv outId abase tbase st2 m ∧ c ∈ st2.categories ∧
      c.datasetId = outId ∧ (∀ x ∈ st.categories, x ∈ st2.categories) ∧
      st2.images = st.images := by
  obtain ⟨hc, hcats, himgs, hanns, hnext, htrace, hguard⟩ :=
    dbCreateCategory_ok _ _ _ _ _ _ _ h
  have hds : c.datasetId = outId := by rw [hc]
  refine ⟨⟨?_, ?_, ?_, ?_, ?_, ?_⟩, ?_, hds, ?_, himgs⟩
  · rw [hcats]
    apply uc_append _ _ hinv.uc
    rw [show c.cocoId = cocoId from by rw [hc], show c.datasetId = outId from hds]
    exact hguard
  · intro x hx
    rw [hcats] at hx
    rw [hnext]
    rcases List.mem_append.mp hx with hx | hx
    · exact Nat.lt_succ_of_lt (hinv.fresh_cat x hx)
    · simp only [List.mem_singleton] at hx
      rw [hx, hc]
      exact Nat.lt_succ_self _
  · intro i hi
    rw [himgs] at hi
    rw [hnext]
    exact Nat.lt_succ_of_lt (hinv.fresh_img i hi)
  · intro p hp
    obtain ⟨cx, hcx, hcxe⟩ := hinv.maps p hp
    exact ⟨cx, by rw [hcats]; exact List.mem_append_left _ hcx, hcxe⟩
  · intro a ha
    rw [hanns] at ha
    rcases hinv.anns a ha with hb | ⟨h1, ⟨cx, hcx, hcxe⟩, ⟨ix, hix, hixe⟩⟩
    · exact Or.inl hb
    · refine Or.inr ⟨h1, ⟨cx, ?_, hcxe⟩, ⟨ix, ?_, hixe⟩⟩
      · rw [hcats]; exact List.mem_append_left _ hcx
      · rw [himgs]; exact hix
  · intro op hop
    rw [htrace] at hop
    rcases List.mem_append.mp hop with hop | hop
    · exact hinv.tr op hop
    · simp only [List.mem_singleton] at hop
      rw [hop]
      exact Or.inr rfl
  · rw [hcats]
    exact List.mem_append_right _ (List.mem_singleton.mpr rfl)
  · intro x hx
    rw [hcats]
    exact List.mem_append_left _ hx

theorem dbCreateAnn_inv (outId : Nat) (abase : List AnnRec)
    (tbase : List WriteOp) (st : St) (m : List ((Nat × Nat) × Nat))
    (imageId categoryId : Nat) (bbox : List Int) (area : Int) (iscrowd : Nat)
    (cocoId : Nat) (a : AnnRec) (st2 : St)
    (h : dbCreateAnn st imageId categoryId bbox area iscrowd outId cocoId =
      Except.ok (a, st2))
    (hinv : PhaseInv outId abase tbase st m)
    (hcat : ∃ c ∈ st.categories, c.id = categoryId ∧ c.datasetId = outId)
    (himg : ∃ i ∈ st.images, i.id = imageId ∧ i.datasetId = outId) :
    PhaseInv outId abase tbase st2 m := by
  obtain ⟨ha, hcats, himgs, hanns, hnext, htrace⟩ := dbCreateAnn_ok _ _ _ _ _ _ _ _ _ _ h
  refine ⟨?_, ?_, ?_, ?_, ?_, ?_⟩
  · rw [hcats]; exact hinv.uc
  · intro x hx
    rw [hcats] at hx
    rw [hnext]
    exact Nat.lt_succ_of_lt (hinv.fresh_cat x hx)
  · intro i hi
    rw [himgs] at hi
    rw [hnext]
    exact Nat.lt_succ_of_lt (hinv.fresh_img i hi)
  · intro p hp
    obtain ⟨cx, hcx, hcxe⟩ := hinv.maps p hp
    exact ⟨cx, by rw [hcats]; exact hcx, hcxe⟩
  · intro x hx
    rw [hanns] at hx
    rcases List.mem_append.mp hx with hx | hx
    · rcases hinv.anns x hx with hb | ⟨h1, ⟨cx, hcx, hcxe⟩, ⟨ix, hix, hixe⟩⟩
      · exact Or.inl hb
      · exact Or.inr ⟨h1, ⟨cx, by rw [hcats]; exact hcx, hcxe⟩,
          ⟨ix, by rw [himgs]; exact hix, hixe⟩⟩
    · simp only [List.mem_singleton] at hx
      subst hx
      obtain ⟨cx, hcx, hcxe⟩ := hcat
      obtain ⟨ix, hix, hixe⟩ := himg
      refine Or.inr ⟨by rw [ha], ?_, ?_⟩
      · exact ⟨cx, by rw [hcats]; exact hcx, by rw [ha]; exact hcxe⟩
      · exact ⟨ix, by rw [himgs]; exact hix, by rw [ha]; exact hixe⟩
  · intro op hop
    rw [htrace] at hop
    rcases List.mem_append.mp hop with hop | hop
    · exact hinv.tr op hop
    · simp only [List.mem_singleton] at hop
      rw [hop]
      exact Or.inr rfl

theorem dbCreateImage_inv (outId : Nat) (abase : List AnnRec)
    (tbase : List WriteOp) (st : St) (m : List ((Nat × Nat) × Nat))
    (fileName : String) (width height : Nat) (dateCaptured license : Option Nat)
    (cocoId : Nat) (filePath : Option String) (i : ImageRec) (st2 : St)
    (h : dbCreateImage st fileName width height dateCaptured license outId
      cocoId filePath = Except.ok (i, st2))
    (hinv : PhaseInv outId abase tbase st m) :
    PhaseInv outId abase tbase st2 m ∧ i ∈ st2.images ∧ i.datasetId = outId ∧
      st2.categories = st.categories ∧
      (∀ x ∈ st.images, x.id < i.id) := by
  obtain ⟨hi, hcats, himgs, hanns, hnext, htrace⟩ :=
    dbCreateImage_ok _ _ _ _ _ _ _ _ _ _ _ h
  have hds : i.datasetId = outId := by rw [hi]
  have hid : i.id = st.nextId := by rw [hi]
  refine ⟨⟨?_, ?_, ?_, ?_, ?_, ?_⟩, ?_, hds, hcats, ?_⟩
  · rw [hcats]; exact hinv.uc
  · intro x hx
    rw [hcats] at hx
    rw [hnext]
    exact Nat.lt_succ_of_lt (hinv.fresh_cat x hx)
  · intro x hx
    rw [himgs] at hx
    rw [hnext]
    rcases List.mem_append.mp hx with hx | hx
    · exact Nat.lt_succ_of_lt (hinv.fresh_img x hx)
    · simp only [List.mem_singleton] at hx
      rw [hx, hid]
      exact Nat.lt_succ_self _
  · intro p hp
    obtain ⟨cx, hcx, hcxe⟩ := hinv.maps p hp
    exact ⟨cx, by rw [hcats]; exact hcx, hcxe⟩
  · intro a ha
    rw [hanns] at ha
    rcases hinv.anns a ha with hb | ⟨h1, ⟨cx, hcx, hcxe⟩, ⟨ix, hix, hixe⟩⟩
    · exact Or.inl hb
    · exact Or.inr ⟨h1, ⟨cx, by rw [hcats]; exact hcx, hcxe⟩,
        ⟨ix, by rw [himgs]; exact List.mem_append_left _ hix, hixe⟩⟩
  · intro op hop
    rw [htrace] at hop
    rcases List.mem_append.mp hop with hop | hop
    · exact hinv.tr op hop
    · simp only [List.mem_singleton] at hop
      rw [hop]
      exact Or.inr rfl
  · rw [himgs]
    exact List.mem_append_right _ (List.mem_singleton.mpr rfl)
  · intro x hx
    rw [hid]
    exact hinv.fresh_img x hx

theorem dbUpdateImageThumbnail_inv (outId : Nat) (abase : List AnnRec)
    (tbase : List WriteOp) (st : St) (m : List ((Nat × Nat) × Nat))
    (im : ImageRec) (l : List ImageRec) (p : String)
    (himgs : st.images = l ++ [im])
    (hfreshl : ∀ y ∈ l, y.id < im.id)
    (hds : im.datasetId = outId)
    (hinv : PhaseInv outId abase tbase st m) :
    PhaseInv outId abase tbase (dbUpdateImageThumbnail st im.id p) m := by
  unfold dbUpdateImageThumbnail
  have hfind : st.images.find? (fun i => i.id == im.id) = some im := by
    rw [himgs, List.find?_append]
    have hnone : l.find? (fun i => i.id == im.id) = none := by
      apply List.find?_eq_none.mpr
      intro y hy
      simp only [beq_eq_false_iff_ne, ne_eq, Bool.not_eq_true]
      exact Nat.ne_of_lt (hfreshl y hy)
    rw [hnone]
    simp [List.find?]
  refine ⟨hinv.uc, hinv.fresh_cat, ?_, hinv.maps, ?_, ?_⟩
  · intro i hi
    simp only [List.mem_map] at hi
    obtain ⟨y, hy, hye⟩ := hi
    rw [← hye, (thumbUpd_fields im.id p y).1]
    exact hinv.fresh_img y hy
  · intro a ha
    rcases hinv.anns a ha with hb | ⟨h1, hcx, ⟨ix, hix, hixe⟩⟩
    · exact Or.inl hb
    · refine Or.inr ⟨h1, hcx, ?_⟩
      refine ⟨if ix.id == im.id then { ix with thumbnailPath := some p } else ix, ?_, ?_⟩
      · simp only [List.mem_map]
        exact ⟨ix, hix, rfl⟩
      · exact ⟨by rw [(thumbUpd_fields im.id p ix).1]; exact hixe.1,
          by rw [(thumbUpd_fields im.id p ix).2.2.1]; exact hixe.2⟩
  · intro op hop
    simp only at hop
    rcases List.mem_append.mp hop with hop | hop
    · exact hinv.tr op hop
    · simp only [List.mem_singleton] at hop
      rw [hop]
      right
      unfold opDatasetId
      rw [hfind]
      simp only [Option.map, Option.getD]
      exact hds

theorem setMapping_maps (outId : Nat) (st : St)
    (m : List ((Nat × Nat) × Nat)) (k : Nat × Nat) (v : Nat)
    (hm : ∀ p ∈ m, ∃ c ∈ st.categories, c.id = p.2 ∧ c.datasetId = outId)
    (hv : ∃ c ∈ st.categories, c.id = v ∧ c.datasetId = outId) :
    ∀ p ∈ setMapping m k v, ∃ c ∈ st.categories, c.id = p.2 ∧ c.datasetId = outId := by
  intro p hp
  rcases setAssoc_mem m k v p hp with hp | hp
  · exact hm p hp
  · rw [hp]
    exact hv

theorem attemptCreateAnn_inv (outId : Nat) (abase : List AnnRec)
    (tbase : List WriteOp) (newImageId srcDsId : Nat) (imageFileName : String)
    (a : SrcAnn) (newCategoryId : Nat) (s : CirState) (res : AnnResults)
    (hinv : PhaseInv outId abase tbase s.st s.categoryMappings)
    (hcat : ∃ c ∈ s.st.categories, c.id = newCategoryId ∧ c.datasetId = outId)
    (himg : ∃ i ∈ s.st.images, i.id = newImageId ∧ i.datasetId = outId) :
    PhaseInv outId abase tbase
      (attemptCreateAnn newImageId outId srcDsId imageFileName a newCategoryId
        s res).1.st
      (attemptCreateAnn newImageId outId srcDsId imageFileName a newCategoryId
        s res).1.categoryMappings := by
  unfold attemptCreateAnn
  split
  · next a2 st2 hcr =>
    exact dbCreateAnn_inv _ _ _ _ _ _ _ _ _ _ _ _ _ hcr hinv hcat himg
  · exact hinv

theorem processAnn_inv (outId : Nat) (abase : List AnnRec)
    (tbase : List WriteOp) (newImageId srcDsId : Nat)
    (srcDsName : Option String) (imageFileName : String) (s : CirState)
    (res : AnnResults) (a : SrcAnn)
    (hinv : PhaseInv outId abase tbase s.st s.categoryMappings)
    (himg : ∃ i ∈ s.st.images, i.id = newImageId ∧ i.datasetId = outId) :
    PhaseInv outId abase tbase
      (processAnn newImageId outId srcDsId srcDsName imageFileName s res a).1.st
      (processAnn newImageId outId srcDsId srcDsName imageFileName
        s res a).1.categoryMappings := by
  unfold processAnn
  split
  · next cid hget =>
    have hmem := getAssoc_mem _ _ _ hget
    have hcat := hinv.maps _ hmem
    exact attemptCreateAnn_inv _ _ _ _ _ _ _ _ _ _ hinv hcat himg
  · next hget =>
    split
    · next missingCategory hfound =>
      split
      · split
        · exact hinv
        · next newCategory st2 hcr =>
          obtain ⟨hinv2, hmemc, hdsc, hsub, himgs2⟩ :=
            dbCreateCategory_inv _ _ _ _ _ _ _ _ _ _ hcr hinv
          have hinv3 : PhaseInv outId abase tbase st2
              (setMapping s.categoryMappings (srcDsId, a.categoryId)
                newCategory.id) :=
            ⟨hinv2.uc, hinv2.fresh_cat, hinv2.fresh_img,
              setMapping_maps _ _ _ _ _ hinv2.maps ⟨newCategory, hmemc, rfl, hdsc⟩,
              hinv2.anns, hinv2.tr⟩
          have himg2 : ∃ i ∈ st2.images, i.id = newImageId ∧ i.datasetId = outId := by
            rw [himgs2]; exact himg
          exact attemptCreateAnn_inv _ _ _ _ _ _ _ _ _ _ hinv3
            ⟨newCategory, hmemc, rfl, hdsc⟩ himg2
      · split
        · exact hinv
        · next fallbackCategory st2 hcr =>
          obtain ⟨hinv2, hmemc, hdsc, hsub, himgs2⟩ :=
            dbCreateCategory_inv _ _ _ _ _ _ _ _ _ _ hcr hinv
          have hinv3 : PhaseInv outId abase tbase st2
              (setMapping s.categoryMappings (srcDsId, a.categoryId)
                fallbackCategory.id) :=
            ⟨hinv2.uc, hinv2.fresh_cat, hinv2.fresh_img,
              setMapping_maps _ _ _ _ _ hinv2.maps
                ⟨fallbackCategory, hmemc, rfl, hdsc⟩,
              hinv2.anns, hinv2.tr⟩
          have himg2 : ∃ i ∈ st2.images, i.id = newImageId ∧ i.datasetId = outId := by
            rw [himgs2]; exact himg
          exact attemptCreateAnn_inv _ _ _ _ _ _ _ _ _ _ hinv3
            ⟨fallbackCategory, hmemc, rfl, hdsc⟩ himg2
    · next hfound =>
      split
      · exact hinv
      · next fallbackCategory st2 hcr =>
        obtain ⟨hinv2, hmemc, hdsc, hsub, himgs2⟩ :=
          dbCreateCategory_inv _ _ _ _ _ _ _ _ _ _ hcr hinv
        have hinv3 : PhaseInv outId abase tbase st2
            (setMapping s.categoryMappings (srcDsId, a.categoryId)
              fallbackCategory.id) :=
          ⟨hinv2.uc, hinv2.fresh_cat, hinv2.fresh_img,
            setMapping_maps _ _ _ _ _ hinv2.maps
              ⟨fallbackCategory, hmemc, rfl, hdsc⟩,
            hinv2.anns, hinv2.tr⟩
        have himg2 : ∃ i ∈ st2.images, i.id = newImageId ∧ i.datasetId = outId := by
          rw [himgs2]; exact himg
        exact attemptCreateAnn_inv _ _ _ _ _ _ _ _ _ _ hinv3
          ⟨fallbackCategory, hmemc, rfl, hdsc⟩ himg2

theorem processAnnList_inv (outId : Nat) (abase : List AnnRec)
    (tbase : List WriteOp) (newImageId srcDsId : Nat)
    (srcDsName : Option String) (imageFileName : String) (anns : List SrcAnn)
    (s : CirState) (res : AnnResults)
    (hinv : PhaseInv outId abase tbase s.st s.categoryMappings)
    (himg : ∃ i ∈ s.st.images, i.id = newImageId ∧ i.datasetId = outId) :
    PhaseInv outId abase tbase
      (processAnnList newImageId outId srcDsId srcDsName imageFileName anns
        s res).1.st
      (processAnnList newImageId outId srcDsId srcDsName imageFileName anns
        s res).1.categoryMappings := by
  induction anns generalizing s res with
  | nil => exact hinv
  | cons a anns ih =>
    unfold processAnnList
    apply ih
    · exact processAnn_inv _ _ _ _ _ _ _ _ _ _ hinv himg
    · rw [processAnn_images]
      exact himg

theorem createImageRecord_inv (outId : Nat) (abase : List AnnRec)
    (tbase : List WriteOp) (image : SrcImage) (srcDsId : Nat)
    (srcDsName : Option String) (finalFileName : String) (s : CirState)
    (r : AnnResults) (s2 : CirState)
    (h : createImageRecord image srcDsId srcDsName outId finalFileName s =
      Except.ok (r, s2))
    (hinv : PhaseInv outId abase tbase s.st s.categoryMappings) :
    PhaseInv outId abase tbase s2.st s2.categoryMappings := by
  unfold createImageRecord at h
  split at h
  · cases h
  · next newImage st1 hci =>
    simp only [] at h
    injection h with h2
    have hs2 : s2 = (processAnnList newImage.id outId srcDsId srcDsName
        image.fileName image.annotations
        ⟨if truthyStr image.thumbnailPath then
            dbUpdateImageThumbnail st1 newImage.id
              ("dataset-" ++ toString outId ++ "/thumbnails/" ++ finalFileName)
          else st1,
          if truthyStr image.filePath then
            s.copiedFiles ++
              [(image.filePath.getD "",
                "dataset-" ++ toString outId ++ "/" ++ finalFileName)]
          else s.copiedFiles,
          s.categoryMappings⟩ ⟨0, 0, 0, []⟩).1 :=
      (congrArg Prod.snd h2).symm
    obtain ⟨hinv1, hmemi, hdsi, hcats1, hfreshl⟩ :=
      dbCreateImage_inv _ _ _ _ _ _ _ _ _ _ _ _ _ _ hci hinv
    obtain ⟨hieq, _, himgs1, _, _, _⟩ := dbCreateImage_ok _ _ _ _ _ _ _ _ _ _ _ hci
    rw [hs2]
    by_cases hth : truthyStr image.thumbnailPath = true
    · rw [if_pos hth]
      have hinvU := dbUpdateImageThumbnail_inv outId abase tbase st1
        s.categoryMappings newImage s.st.images
        ("dataset-" ++ toString outId ++ "/thumbnails/" ++ finalFileName)
        himgs1 hfreshl hdsi hinv1
      apply processAnnList_inv _ _ _ _ _ _ _ _ _ _ hinvU
      refine ⟨if newImage.id == newImage.id then
          { newImage with thumbnailPath := some ("dataset-" ++ toString outId ++
            "/thumbnails/" ++ finalFileName) } else newImage, ?_, ?_, ?_⟩
      · unfold dbUpdateImageThumbnail
        simp only [List.mem_map]
        exact ⟨newImage, hmemi, rfl⟩
      · exact (thumbUpd_fields newImage.id _ newImage).1
      · rw [(thumbUpd_fields newImage.id _ newImage).2.2.1]
        exact hdsi
    · rw [if_neg hth]
      apply processAnnList_inv _ _ _ _ _ _ _ _ _ _ hinv1
      exact ⟨newImage, hmemi, rfl, hdsi⟩

theorem runCreateImageRecord_inv (outId : Nat) (abase : List AnnRec)
    (tbase : List WriteOp) (mp : MergePhase) (item : GroupItem) (fn : String)
    (mp2 : MergePhase)
    (h : runCreateImageRecord mp item outId fn = Except.ok mp2)
    (hinv : PhaseInv outId abase tbase mp.st mp.categoryMappings) :
    PhaseInv outId abase tbase mp2.st mp2.categoryMappings := by
  unfold runCreateImageRecord at h
  split at h
  · cases h
  · next r s2 hcir =>
    cases h
    exact createImageRecord_inv _ _ _ _ _ _ _ _ _ _ hcir hinv

theorem renameLoop_inv (outId : Nat) (abase : List AnnRec)
    (tbase : List WriteOp) (fileName : String) (i : Nat)
    (items : List GroupItem) (mp mp2 : MergePhase)
    (h : renameLoop fileName outId i items mp = Except.ok mp2)
    (hinv : PhaseInv outId abase tbase mp.st mp.categoryMappings) :
    PhaseInv outId abase tbase mp2.st mp2.categoryMappings := by
  induction items generalizing i mp with
  | nil => cases h; exact hinv
  | cons item items ih =>
    unfold renameLoop at h
    simp only [] at h
    split at h
    · cases h
    · next mp0 hstep =>
      exact ih _ _ h (runCreateImageRecord_inv _ _ _ _ _ _ _ hstep hinv)

theorem processGroup_inv (outId : Nat) (abase : List AnnRec)
    (tbase : List WriteOp) (strategy : HandleDuplicateImages)
    (fileName : String) (group : List GroupItem) (mp mp2 : MergePhase)
    (h : processGroup strategy outId fileName group mp = Except.ok mp2)
    (hinv : PhaseInv outId abase tbase mp.st mp.categoryMappings) :
    PhaseInv outId abase tbase mp2.st mp2.categoryMappings := by
  unfold processGroup at h
  split at h
  · cases h; exact hinv
  · exact runCreateImageRecord_inv _ _ _ _ _ _ _ h hinv
  · split at h
    · split at h
      · cases h
      · next mp0 hloop =>
        cases h
        exact renameLoop_inv outId abase tbase fileName 0 _ mp mp0 hloop hinv
    · split at h
      · cases h; exact hinv
      · exact runCreateImageRecord_inv _ _ _ _ _ _ _ h hinv
    · exact runCreateImageRecord_inv _ _ _ _ _ _ _ h hinv
    · exact runCreateImageRecord_inv _ _ _ _ _ _ _ h hinv

theorem processGroups_inv (outId : Nat) (abase : List AnnRec)
    (tbase : List WriteOp) (strategy : HandleDuplicateImages)
    (groups : List (String × List GroupItem)) (mp mp2 : MergePhase)
    (h : processGroups strategy outId groups mp = Except.ok mp2)
    (hinv : PhaseInv outId abase tbase mp.st mp.categoryMappings) :
    PhaseInv outId abase tbase mp2.st mp2.categoryMappings := by
  induction groups generalizing mp with
  | nil => cases h; exact hinv
  | cons g groups ih =>
    unfold processGroups at h
    split at h
    · cases h
    · next mp0 hstep =>
      exact ih _ h (processGroup_inv _ _ _ _ _ _ _ _ hstep hinv)

/-! Category-phase invariant. -/

structure CatInv (outId : Nat) (abase : List AnnRec) (tbase : List WriteOp)
    (cp : CatPhase) : Prop where
  base : PhaseInv outId abase tbase cp.st cp.categoryMappings
  ex : ∀ c ∈ cp.existingCategories, c ∈ cp.st.categories ∧ c.datasetId = outId
  mt : ∀ p ∈ cp.mergeTargets, ∃ c ∈ cp.st.categories, c.id = p.2 ∧ c.datasetId = outId

theorem processMergeDecision_inv (outId : Nat) (abase : List AnnRec)
    (tbase : List WriteOp) (conflicts : List Conflict) (cp : CatPhase)
    (d : CategoryMappingDecision) (cp2 : CatPhase)
    (h : processMergeDecision outId conflicts cp d = Except.ok cp2)
    (hinv : CatInv outId abase tbase cp) : CatInv outId abase tbase cp2 := by
  unfold processMergeDecision at h
  split at h
  · split at h
    · cases h; exact hinv
    · split at h
      · cases h
      · split at h
        · cases h; exact hinv
        · simp only [] at h
          split at h
          · next existingTarget hfind =>
            cases h
            refine ⟨hinv.base, hinv.ex, ?_⟩
            intro p hp
            rcases setAssoc_mem _ _ _ _ hp with hp | hp
            · exact hinv.mt p hp
            · rw [hp]
              obtain ⟨hmem, hds⟩ := hinv.ex existingTarget
                (List.mem_of_find?_eq_some hfind)
              exact ⟨existingTarget, hmem, rfl, hds⟩
          · split at h
            · cases h
            · next newCategory st2 hcr =>
              cases h
              obtain ⟨hinv2, hmemc, hdsc, hsub, _⟩ :=
                dbCreateCategory_inv _ _ _ _ _ _ _ _ _ _ hcr hinv.base
              refine ⟨hinv2, ?_, ?_⟩
              · intro c hc
                simp only at hc
                rcases List.mem_append.mp hc with hc | hc
                · obtain ⟨hmem, hds⟩ := hinv.ex c hc
                  exact ⟨hsub c hmem, hds⟩
                · simp only [List.mem_singleton] at hc
                  rw [hc]
                  exact ⟨hmemc, hdsc⟩
              · intro p hp
                simp only at hp
                rcases setAssoc_mem _ _ _ _ hp with hp | hp
                · obtain ⟨cx, hcx, hcxe⟩ := hinv.mt p hp
                  exact ⟨cx, hsub cx hcx, hcxe⟩
                · rw [hp]
                  exact ⟨newCategory, hmemc, rfl, hdsc⟩
  · cases h; exact hinv

theorem firstPass_inv (outId : Nat) (abase : List AnnRec)
    (tbase : List WriteOp) (conflicts : List Conflict)
    (ds : List CategoryMappingDecision) (cp cp2 : CatPhase)
    (h : firstPass outId conflicts ds cp = Except.ok cp2)
    (hinv : CatInv outId abase tbase cp) : CatInv outId abase tbase cp2 := by
  induction ds generalizing cp with
  | nil => cases h; exact hinv
  | cons d ds ih =>
    unfold firstPass at h
    split at h
    · cases h
    · next cp0 hstep =>
      exact ih cp0 h (processMergeDecision_inv _ _ _ _ _ _ _ hstep hinv)

theorem findOrCreate_inv (outId : Nat) (abase : List AnnRec)
    (tbase : List WriteOp) (cp : CatPhase) (name : String)
    (sc : Option String) (cocoId : Nat) (fid : Nat) (cp2 : CatPhase)
    (h : findOrCreate outId cp name sc cocoId = Except.ok (fid, cp2))
    (hinv : CatInv outId abase tbase cp) :
    CatInv outId abase tbase cp2 ∧
      ∃ c ∈ cp2.st.categories, c.id = fid ∧ c.datasetId = outId := by
  unfold findOrCreate at h
  split at h
  · next c0 hfind =>
    injection h with h2
    injection h2 with ha hb
    subst ha
    subst hb
    obtain ⟨hmem, hds⟩ := hinv.ex c0 (List.mem_of_find?_eq_some hfind)
    exact ⟨hinv, c0, hmem, rfl, hds⟩
  · split at h
    · cases h
    · next newCategory st2 hcr =>
      injection h with h2
      injection h2 with ha hb
      subst ha
      subst hb
      obtain ⟨hinv2, hmemc, hdsc, hsub, _⟩ :=
        dbCreateCategory_inv _ _ _ _ _ _ _ _ _ _ hcr hinv.base
      refine ⟨⟨hinv2, ?_, ?_⟩, newCategory, hmemc, rfl, hdsc⟩
      · intro c hc
        simp only at hc
        rcases List.mem_append.mp hc with hc | hc
        · obtain ⟨hmem, hds⟩ := hinv.ex c hc
          exact ⟨hsub c hmem, hds⟩
        · simp only [List.mem_singleton] at hc
          rw [hc]
          exact ⟨hmemc, hdsc⟩
      · intro p hp
        obtain ⟨cx, hcx, hcxe⟩ := hinv.mt p hp
        exact ⟨cx, hsub cx hcx, hcxe⟩

theorem setCatMapping_inv (outId : Nat) (abase : List AnnRec)
    (tbase : List WriteOp) (cp : CatPhase) (dsId catId fid : Nat)
    (hinv : CatInv outId abase tbase cp)
    (hfid : ∃ c ∈ cp.st.categories, c.id = fid ∧ c.datasetId = outId) :
    CatInv outId abase tbase (setCatMapping cp dsId catId fid) := by
  refine ⟨⟨hinv.base.uc, hinv.base.fresh_cat, hinv.base.fresh_img, ?_,
    hinv.base.anns, hinv.base.tr⟩, hinv.ex, hinv.mt⟩
  exact setMapping_maps _ _ _ _ _ hinv.base.maps hfid

theorem applyUserDecision_inv (outId : Nat) (abase : List AnnRec)
    (tbase : List WriteOp) (cp : CatPhase) (it : ConflictItem)
    (conflict : Conflict) (d : CategoryMappingDecision) (cp2 : CatPhase)
    (h : applyUserDecision outId cp it conflict d = Except.ok cp2)
    (hinv : CatInv outId abase tbase cp) : CatInv outId abase tbase cp2 := by
  unfold applyUserDecision at h
  split at h
  · split at h
    · next targetId hget =>
      cases h
      apply setCatMapping_inv _ _ _ _ _ _ _ hinv
      exact hinv.mt _ (getAssoc_mem _ _ _ hget)
    · cases h
      refine ⟨⟨hinv.base.uc, hinv.base.fresh_cat, hinv.base.fresh_img, ?_,
        hinv.base.anns, hinv.base.tr⟩, hinv.ex, hinv.mt⟩
      intro p hp
      exact hinv.base.maps p (eraseMapping_subset _ _ _ hp)
  · split at h
    · cases h
    · next hfoc =>
      cases h
      obtain ⟨hinv2, hfid⟩ := findOrCreate_inv _ _ _ _ _ _ _ _ _ hfoc hinv
      exact setCatMapping_inv _ _ _ _ _ _ _ hinv2 hfid
  · split at h
    · cases h
    · next hfoc =>
      cases h
      obtain ⟨hinv2, hfid⟩ := findOrCreate_inv _ _ _ _ _ _ _ _ _ hfoc hinv
      exact setCatMapping_inv _ _ _ _ _ _ _ hinv2 hfid

theorem applyDefaultStrategy_inv (outId : Nat) (abase : List AnnRec)
    (tbase : List WriteOp) (strategy : CategoryMergeStrategy) (cp : CatPhase)
    (it : ConflictItem) (cp2 : CatPhase)
    (h : applyDefaultStrategy outId strategy cp it = Except.ok cp2)
    (hinv : CatInv outId abase tbase cp) : CatInv outId abase tbase cp2 := by
  unfold applyDefaultStrategy at h
  split at h <;>
  · split at h
    · cases h
    · next hfoc =>
      cases h
      obtain ⟨hinv2, hfid⟩ := findOrCreate_inv _ _ _ _ _ _ _ _ _ hfoc hinv
      exact setCatMapping_inv _ _ _ _ _ _ _ hinv2 hfid

theorem processCategory_inv (outId : Nat) (abase : List AnnRec)
    (tbase : List WriteOp) (strategy : CategoryMergeStrategy)
    (conflicts : List Conflict) (dl : List (Nat × CategoryMappingDecision))
    (cp : CatPhase) (it : ConflictItem) (cp2 : CatPhase)
    (h : processCategory outId strategy conflicts dl cp it = Except.ok cp2)
    (hinv : CatInv outId abase tbase cp) : CatInv outId abase tbase cp2 := by
  unfold processCategory at h
  split at h
  · split at h
    · exact applyUserDecision_inv _ _ _ _ _ _ _ _ h hinv
    · exact applyDefaultStrategy_inv _ _ _ _ _ _ _ h hinv
  · exact applyDefaultStrategy_inv _ _ _ _ _ _ _ h hinv

theorem secondPass_inv (outId : Nat) (abase : List AnnRec)
    (tbase : List WriteOp) (strategy : CategoryMergeStrategy)
    (conflicts : List Conflict) (dl : List (Nat × CategoryMappingDecision))
    (l : List ConflictItem) (cp cp2 : CatPhase)
    (h : secondPass outId strategy conflicts dl l cp = Except.ok cp2)
    (hinv : CatInv outId abase tbase cp) : CatInv outId abase tbase cp2 := by
  induction l generalizing cp with
  | nil => cases h; exact hinv
  | cons it l ih =>
    unfold secondPass at h
    split at h
    · cases h
    · next cp0 hstep =>
      exact ih cp0 h (processCategory_inv _ _ _ _ _ _ _ _ _ hstep hinv)

theorem initialSetup_inv (st0 : St) (ms : MergeStrategy) (tid : Option Nat)
    (huc : UniqueCatPairs st0.categories)
    (hfc : ∀ c ∈ st0.categories, c.id < st0.nextId)
    (hfi : ∀ i ∈ st0.images, i.id < st0.nextId) :
    PhaseInv (initialSetup st0 ms tid).1 st0.annotations st0.trace
      (initialSetup st0 ms tid).2 [] := by
  cases ms with
  | create_new =>
    refine ⟨huc, ?_, ?_, ?_, ?_, ?_⟩
    · intro c hc
      exact Nat.lt_succ_of_lt (hfc c hc)
    · intro i hi
      exact Nat.lt_succ_of_lt (hfi i hi)
    · intro p hp
      cases hp
    · intro a ha
      exact Or.inl ha
    · intro op hop
      rcases List.mem_append.mp hop with hop | hop
      · exact Or.inl hop
      · simp only [List.mem_singleton] at hop
        rw [hop]
        exact Or.inr rfl
  | merge_into_existing =>
    refine ⟨huc, hfc, hfi, ?_, ?_, ?_⟩
    · intro p hp
      cases hp
    · intro a ha
      exact Or.inl ha
    · intro op hop
      exact Or.inl hop

theorem startCatInv (outId : Nat) (abase : List AnnRec) (tbase : List WriteOp)
    (st1 : St) (hinv : PhaseInv outId abase tbase st1 []) :
    CatInv outId abase tbase
      ⟨st1, st1.categories.filter (fun c => c.datasetId == outId), [], []⟩ := by
  refine ⟨hinv, ?_, ?_⟩
  · intro c hc
    simp only at hc
    have hm := List.mem_filter.mp hc
    refine ⟨hm.1, ?_⟩
    have h2 := hm.2
    simpa using h2
  · intro p hp
    cases hp

theorem mergeRun_inv (st0 : St) (srcs : List SrcDataset) (ms : MergeStrategy)
    (tgt : Option Nat) (cms : CategoryMergeStrategy)
    (hdi : HandleDuplicateImages) (decisions : List CategoryMappingDecision)
    (res : MergeResultState)
    (hrun : mergeRun st0 srcs ms tgt cms hdi decisions = Except.ok res)
    (huc : UniqueCatPairs st0.categories)
    (hfc : ∀ c ∈ st0.categories, c.id < st0.nextId)
    (hfi : ∀ i ∈ st0.images, i.id < st0.nextId) :
    PhaseInv res.finalDatasetId st0.annotations st0.trace res.st
      res.categoryMappings := by
  obtain ⟨cp2, repaired, conflicts, mp, hres, hpg, hreseq⟩ :=
    mergeRun_unpack _ _ _ _ _ _ _ _ hrun
  obtain ⟨_, _, cp1, hfp, hsp⟩ :=
    resolveCategoryMappings_unpack _ _ _ _ _ _ _ _ hres
  have h0 := initialSetup_inv st0 ms tgt huc hfc hfi
  have hstart := startCatInv _ _ _ _ h0
  have h1 := firstPass_inv _ _ _ _ _ _ _ hfp hstart
  have h2 := secondPass_inv _ _ _ _ _ _ _ _ _ hsp h1
  have h3 := processGroups_inv _ _ _ _ _ _ _ hpg h2.base
  rw [hreseq]
  exact h3

/-- C7: after any successful merge run (starting from a store whose existing
categories satisfy the @@unique([cocoId, datasetId]) constraint and whose row
ids are below the id counter), no two categories of the target dataset share
the same (cocoId, datasetId) pair, and every annotation created by the merge
belongs to the target dataset and references a category and an image of that
same dataset. -/
theorem C7_category_uniqueness_invariant
    (st0 : St) (srcs : List SrcDataset) (ms : MergeStrategy)
    (tgt : Option Nat) (cms : CategoryMergeStrategy)
    (hdi : HandleDuplicateImages) (decisions : List CategoryMappingDecision)
    (res : MergeResultState)
    (hrun : mergeRun st0 srcs ms tgt cms hdi decisions = Except.ok res)
    (huc : UniqueCatPairs st0.categories)
    (hfc : ∀ c ∈ st0.categories, c.id < st0.nextId)
    (hfi : ∀ i ∈ st0.images, i.id < st0.nextId) :
    UniqueCatPairs (res.st.categories.filter
      (fun c => c.datasetId == res.finalDatasetId)) ∧
    ∀ a ∈ res.st.annotations, a ∉ st0.annotations →
      a.datasetId = res.finalDatasetId ∧
      (∃ c ∈ res.st.categories, c.id = a.categoryId ∧
        c.datasetId = a.datasetId) ∧
      (∃ i ∈ res.st.images, i.id = a.imageId ∧ i.datasetId = a.datasetId) := by
  have hinv := mergeRun_inv st0 srcs ms tgt cms hdi decisions res hrun huc hfc hfi
  constructor
  · exact List.Pairwise.sublist (List.filter_sublist _) hinv.uc
  · intro a ha hnew
    rcases hinv.anns a ha with h | ⟨hds, ⟨c, hcm, hcid, hcds⟩, ⟨i, him, hiid, hids⟩⟩
    · exact absurd h hnew
    · refine ⟨hds, ⟨c, hcm, hcid, ?_⟩, ⟨i, him, hiid, ?_⟩⟩
      · rw [hcds, hds]
      · rw [hids, hds]

/-- C9: every persisted write issued by a successful merge run (any trace
entry not already present before the run) touches a row of the output
dataset; in particular, when no source dataset is the output dataset, no
write targets any source dataset — the sources are read-only. -/
theorem C9_sources_read_only
    (st0 : St) (srcs : List SrcDataset) (ms : MergeStrategy)
    (tgt : Option Nat) (cms : CategoryMergeStrategy)
    (hdi : HandleDuplicateImages) (decisions : List CategoryMappingDecision)
    (res : MergeResultState)
    (hrun : mergeRun st0 srcs ms tgt cms hdi decisions = Except.ok res)
    (huc : UniqueCatPairs st0.categories)
    (hfc : ∀ c ∈ st0.categories, c.id < st0.nextId)
    (hfi : ∀ i ∈ st0.images, i.id < st0.nextId)
    (hsrc : ∀ d ∈ srcs, d.id ≠ res.finalDatasetId) :
    ∀ op ∈ res.st.trace, op ∉ st0.trace →
      opDatasetId op = res.finalDatasetId ∧
      ∀ d ∈ srcs, opDatasetId op ≠ d.id := by
  have hinv := mergeRun_inv st0 srcs ms tgt cms hdi decisions res hrun huc hfc hfi
  intro op hop hnew
  rcases hinv.tr op hop with h | h
  · exact absurd h hnew
  · refine ⟨h, ?_⟩
    intro d hd hc
    rw [h] at hc
    exact hsrc d hd hc.symm

/-! Concrete witness scenarios. -/

/-- An empty record store with id counter 1. -/
def w1St : St := ⟨1, [], [], [], []⟩

/-- First source dataset of the C1 scenario: one category (cat, cocoId 5). -/
def w1Ds1 : SrcDataset := ⟨10, some "A", [⟨11, "cat", none, 10, 5⟩], []⟩

/-- Second source dataset: the same (name, cocoId) pair, so the two
categories form one conflict. -/
def w1Ds2 : SrcDataset := ⟨20, some "B", [⟨21, "cat", none, 20, 5⟩], []⟩

/-- A user decision resolving conflict 0 with action merge. -/
def w1Decision : CategoryMappingDecision :=
  ⟨0, DecisionAction.merge, some "cat", some 5, none⟩

/-- The C1 scenario run. -/
def w1Run : Except String MergeResultState :=
  mergeRun w1St [w1Ds1, w1Ds2] MergeStrategy.create_new none
    CategoryMergeStrategy.merge_by_name HandleDuplicateImages.skip [w1Decision]

/-- Its result state. -/
def w1Res : MergeResultState := w1Run.toOption.getD default

/-- The single conflict of the C1 scenario. -/
def w1Conflict : Conflict := w1Res.conflicts.getD 0 default

/-- Witness for C1: in the two-dataset single-conflict run with a merge
decision, both source categories map to the one created target category. -/
theorem C1_single_merge_target_witness :
    w1Run = Except.ok w1Res ∧
    w1Conflict ∈ w1Res.conflicts ∧
    getAssoc (buildDecisionLookup [w1Decision]) w1Conflict.index =
      some w1Decision ∧
    w1Decision.action = DecisionAction.merge ∧
    ∃ t, getAssoc w1Res.mergeTargets w1Conflict.index = some t ∧
      ∀ it ∈ w1Conflict.items,
        getMapping w1Res.categoryMappings (it.datasetId, it.category.id) =
          some t :=
  ⟨by decide, by decide, by decide, by decide,
    C1_single_merge_target w1St [w1Ds1, w1Ds2] MergeStrategy.create_new none
      CategoryMergeStrategy.merge_by_name HandleDuplicateImages.skip
      [w1Decision] w1Res w1Conflict w1Decision (by decide) (by decide)
      (by decide) (by decide) (by decide)⟩

/-- Witness for the amended C2: the foreign-owned category id 7 is
referenced, undeclared, found in the store, and indeed appended. -/
theorem C2_orphan_repair_appends_any_found_witness :
    7 ∈ referencedCategoryIds c2SourceDataset ∧
    7 ∉ c2SourceDataset.categories.map (fun c => c.id) ∧
    c2Table.find? (fun c2 => c2.id == 7) = some c2ForeignCategory ∧
    c2ForeignCategory ∈ (repairOrphans c2Table c2SourceDataset).categories :=
  ⟨by decide, by decide, by decide,
    C2_orphan_repair_appends_any_found c2Table c2SourceDataset 7
      c2ForeignCategory (by decide) (by decide) (by decide)⟩

/-- CirState for the C3 witness: empty store, no mappings. -/
def w3S : CirState := ⟨⟨50, [], [], [], []⟩, [], []⟩

/-- A source annotation referencing the wholly nonexistent category id 7. -/
def w3A : SrcAnn := ⟨9, 4, [], 0, 0, 7⟩

/-- Witness for C3: processing the orphan annotation creates the [MISSING]
placeholder category and copies the annotation under it. -/
theorem C3_true_orphan_placeholder_witness :
    getMapping w3S.categoryMappings (2, w3A.categoryId) = none ∧
    w3S.st.categories.find? (fun c => c.id == w3A.categoryId) = none ∧
    w3S.st.categories.any (fun c =>
      c.cocoId == w3A.categoryId + 2 * 10000 && c.datasetId == 1) = false ∧
    w3S.st.annotations.any (fun r =>
      r.cocoId == w3A.cocoId + 2 * 1000000 && r.datasetId == 1) = false ∧
    ∃ cat ann,
      cat ∈ (processAnn 100 1 2 (some "alpha") "x.png" w3S ⟨0, 0, 0, []⟩
        w3A).1.st.categories ∧
      cat.name = "[MISSING]_" ++ jsOrStr (some "alpha") "Unknown" ++
        "_CategoryID_" ++ toString w3A.categoryId ∧
      cat.datasetId = 1 ∧
      ann ∈ (processAnn 100 1 2 (some "alpha") "x.png" w3S ⟨0, 0, 0, []⟩
        w3A).1.st.annotations ∧
      ann.categoryId = cat.id ∧ ann.imageId = 100 ∧ ann.datasetId = 1 ∧
      (processAnn 100 1 2 (some "alpha") "x.png" w3S ⟨0, 0, 0, []⟩
        w3A).2.success = (⟨0, 0, 0, []⟩ : AnnResults).success + 1 :=
  ⟨by decide, by decide, by decide, by decide,
    C3_true_orphan_placeholder 100 1 2 (some "alpha") "x.png" w3S
      ⟨0, 0, 0, []⟩ w3A (by decide) (by decide) (by decide) (by decide)⟩

/-- A dummy annotation used to give the C4 datasets their totals. -/
def w4Ann : SrcAnn := ⟨0, 0, [], 0, 0, 0⟩

/-- C4 dataset with total annotation count 50. -/
def w4DsA : SrcDataset := ⟨1, some "A", [],
  [⟨500, "big.png", 1, 1, none, none, 1, none, none, List.replicate 50 w4Ann⟩]⟩

/-- C4 dataset with total annotation count 30. -/
def w4DsB : SrcDataset := ⟨2, some "B", [],
  [⟨501, "big.png", 1, 1, none, none, 1, none, none, List.replicate 30 w4Ann⟩]⟩

/-- C4 dataset with total annotation count 80. -/
def w4DsC : SrcDataset := ⟨3, some "C", [],
  [⟨502, "big.png", 1, 1, none, none, 1, none, none, List.replicate 80 w4Ann⟩]⟩

/-- The shared duplicate fileName image of the C4 group. -/
def w4Img (j : Nat) : SrcImage :=
  ⟨j, "dup.png", 4, 4, none, none, j, none, none, []⟩

/-- Group member with per-image count 2 from the total-50 dataset. -/
def w4I1 : GroupItem := ⟨w4Img 1, w4DsA, 2⟩

/-- Group member with per-image count 5 from the total-30 dataset. -/
def w4I2 : GroupItem := ⟨w4Img 2, w4DsB, 5⟩

/-- Group member with per-image count 5 from the total-80 dataset. -/
def w4I3 : GroupItem := ⟨w4Img 3, w4DsC, 5⟩

/-- Starting phase state of the C4 scenario. -/
def w4Start : MergePhase := ⟨⟨1000, [], [], [], []⟩, [], [], [], ⟨0, 0, 0, []⟩⟩

/-- The C4 keep_best_annotated run on the group. -/
def w4Run : Except String MergePhase :=
  processGroup HandleDuplicateImages.keep_best_annotated 77 "dup.png"
    [w4I1, w4I2, w4I3] w4Start

/-- Its result state. -/
def w4End : MergePhase := w4Run.toOption.getD default

/-- Witness for C4 at per-image counts [2, 5, 5] and dataset totals
[50, 30, 80]: the third member survives. -/
theorem C4_keep_best_annotated_witness :
    w4Run = Except.ok w4End ∧
    w4I1.annotationCount = 2 ∧ w4I2.annotationCount = 5 ∧
    w4I3.annotationCount = 5 ∧
    datasetTotalAnnotations w4I1.dataset = 50 ∧
    datasetTotalAnnotations w4I2.dataset = 30 ∧
    datasetTotalAnnotations w4I3.dataset = 80 ∧
    (reduceKeepBest w4I1 [w4I2, w4I3] = w4I3 ∧
    (∃ w, w4End.duplicateWarnings = w4Start.duplicateWarnings ++ [w] ∧
      w.selectedDataset = some (jsOrStr w4I3.dataset.name "Unnamed Dataset")) ∧
    ∃ f rc, w4End.st.images = w4Start.st.images.map f ++ [rc] ∧
      (∀ im : ImageRec, (f im).fileName = im.fileName ∧
        (f im).datasetId = im.datasetId) ∧
      rc.fileName = "dup.png" ∧ rc.datasetId = 77 ∧
      rc.cocoId = w4I3.image.cocoId + w4I3.dataset.id * 100000) :=
  ⟨by decide, by decide, by decide, by decide, by decide, by decide, by decide,
    C4_keep_best_annotated 77 "dup.png" w4I1 w4I2 w4I3 w4Start w4End
      (by decide) (by decide) (by decide) (by decide) (by decide) (by decide)
      (by decide)⟩

/-- The name group (b) spanning cocoIds 1 and 2 in the C6 scenario. -/
def w6Group : String × List AnalyzeCategory :=
  ("b", [⟨2, "b", 1, 1, "s1", 1⟩, ⟨4, "b", 2, 2, "s2", 1⟩])

/-- Witness for the amended C6: the name group b spans two cocoIds and its
keep_separate name-conflict entry lands in the combined conflicts array. -/
theorem C6_name_conflicts_appended_witness :
    w6Group ∈ groupByKey (fun c => c.name)
      (buildAllCategories [] [c6Source1, c6Source2]) ∧
    w6Group.2.length > 1 ∧
    (dedupNats (w6Group.2.map (fun c => c.cocoId))).length > 1 ∧
    mkNameConflict w6Group.1 w6Group.2
      (dedupNats (w6Group.2.map (fun c => c.cocoId))) ∈
      (analyzeMerge [] [c6Source1, c6Source2]
        CategoryMergeStrategy.merge_by_name).conflicts :=
  ⟨by decide, by decide, by decide,
    (C6_name_conflicts_appended [] [c6Source1, c6Source2]
      CategoryMergeStrategy.merge_by_name).2.2.2 w6Group (by decide)
      (by decide) (by decide)⟩

/-- An empty starting store for the C7 and C9 scenario. -/
def w7St : St := ⟨1, [], [], [], []⟩

/-- The C7/C9 scenario run: create_new with no sources. -/
def w7Run : Except String MergeResultState :=
  mergeRun w7St [] MergeStrategy.create_new none
    CategoryMergeStrategy.merge_by_name HandleDuplicateImages.skip []

/-- Its result state. -/
def w7Res : MergeResultState := w7Run.toOption.getD default

/-- Witness for C7 on the concrete run. -/
theorem C7_category_uniqueness_invariant_witness :
    w7Run = Except.ok w7Res ∧
    UniqueCatPairs w7St.categories ∧
    (∀ c ∈ w7St.categories, c.id < w7St.nextId) ∧
    (∀ i ∈ w7St.images, i.id < w7St.nextId) ∧
    (UniqueCatPairs (w7Res.st.categories.filter
      (fun c => c.datasetId == w7Res.finalDatasetId)) ∧
    ∀ a ∈ w7Res.st.annotations, a ∉ w7St.annotations →
      a.datasetId = w7Res.finalDatasetId ∧
      (∃ c ∈ w7Res.st.categories, c.id = a.categoryId ∧
        c.datasetId = a.datasetId) ∧
      (∃ i ∈ w7Res.st.images, i.id = a.imageId ∧
        i.datasetId = a.datasetId)) :=
  ⟨by decide, List.Pairwise.nil, by decide, by decide,
    C7_category_uniqueness_invariant w7St [] MergeStrategy.create_new none
      CategoryMergeStrategy.merge_by_name HandleDuplicateImages.skip [] w7Res
      (by decide) List.Pairwise.nil (by decide) (by decide)⟩

/-- The pre-existing target category named X of the C8 scenario. -/
def w8Cat : Category := ⟨40, "X", none, 7, 1⟩

/-- Starting store of the C8 scenario: the target dataset 7 already holds
the category named X. -/
def w8St : St := ⟨100, [w8Cat], [], [], []⟩

/-- The resulting category phase of the C8 resolver run. -/
def w8Cp : CatPhase := ⟨w8St, [w8Cat], [], []⟩

/-- Witness for C8 on the concrete resolver run against a target that
already holds X. -/
theorem C8_idempotent_target_reuse_witness :
    resolveCategoryMappings w8St 7 [] CategoryMergeStrategy.merge_by_name [] =
      Except.ok (w8Cp, [], []) ∧
    (∀ d ∈ ([] : List CategoryMappingDecision),
      d.action = DecisionAction.merge) ∧
    w8Cat ∈ w8St.categories ∧ w8Cat.datasetId = 7 ∧ w8Cat.name = "X" ∧
    ∀ c ∈ w8Cp.st.categories, c ∈ w8St.categories ∨ c.name ≠ "X" :=
  ⟨by decide, by decide, by decide, by decide, by decide,
    C8_idempotent_target_reuse w8St 7 [] [] w8Cp [] [] "X" w8Cat (by decide)
      (by decide) (by decide) (by decide) (by decide)⟩

/-- Witness for C9 on the concrete run: the one new trace entry targets the
output dataset. -/
theorem C9_sources_read_only_witness :
    w7Run = Except.ok w7Res ∧
    UniqueCatPairs w7St.categories ∧
    (∀ c ∈ w7St.categories, c.id < w7St.nextId) ∧
    (∀ i ∈ w7St.images, i.id < w7St.nextId) ∧
    (∀ d ∈ ([] : List SrcDataset), d.id ≠ w7Res.finalDatasetId) ∧
    ∀ op ∈ w7Res.st.trace, op ∉ w7St.trace →
      opDatasetId op = w7Res.finalDatasetId ∧
      ∀ d ∈ ([] : List SrcDataset), opDatasetId op ≠ d.id :=
  ⟨by decide, List.Pairwise.nil, by decide, by decide, by decide,
    C9_sources_read_only w7St [] MergeStrategy.create_new none
      CategoryMergeStrategy.merge_by_name HandleDuplicateImages.skip [] w7Res
      (by decide) List.Pairwise.nil (by decide) (by decide) (by decide)⟩

/-- A target-dataset image named dup.png already present before the C10
group is processed. -/
def w10Existing : ImageRec := ⟨1, "dup.png", 2, 2, none, none, 77, 5, none, none⟩

/-- Starting phase state of the C10 scenario. -/
def w10Start : MergePhase :=
  ⟨⟨1000, [], [w10Existing], [], []⟩, [], [], [], ⟨0, 0, 0, []⟩⟩

/-- Source image of the C10 duplicate group. -/
def w10Img (j : Nat) : SrcImage :=
  ⟨j, "dup.png", 4, 4, none, none, j, none, none, []⟩

/-- The source dataset of the C10 group members. -/
def w10Ds : SrcDataset := ⟨9, some "S", [], []⟩

/-- First group member. -/
def w10G0 : GroupItem := ⟨w10Img 1, w10Ds, 2⟩

/-- Second group member. -/
def w10G1 : GroupItem := ⟨w10Img 2, w10Ds, 5⟩

/-- The C10 skip run on the group. -/
def w10Run : Except String MergePhase :=
  processGroup HandleDuplicateImages.skip 77 "dup.png" [w10G0, w10G1] w10Start

/-- Its result state. -/
def w10End : MergePhase := w10Run.toOption.getD default

/-- Witness for C10: with dup.png already in target dataset 77 the whole
group is skipped and only the warning is appended. -/
theorem C10_skip_preexisting_target_witness :
    w10Run = Except.ok w10End ∧
    w10Start.st.images.any (fun img =>
      img.datasetId == 77 && img.fileName == "dup.png") = true ∧
    w10End = { w10Start with duplicateWarnings := w10Start.duplicateWarnings ++
      [⟨"dup.png", ([w10G0, w10G1] : List GroupItem).length,
        [w10G0, w10G1].map (fun it => jsOrStr it.dataset.name "Unnamed Dataset"),
        none, some "All instances skipped (already exists in target)"⟩] } :=
  ⟨by decide, by decide,
    (C10_skip_preexisting_target 77 "dup.png" w10G0 w10G1 [] w10Start w10End
      (by decide)).1 (by decide)⟩

end TagEditor
